import Mathlib

/-!
Verification of the billing subsystem of the EU AI Act compliance agent.

The definitions below are a shallow embedding of the Python sources:

* `ToolLock`  — `src/compliance_agent/billing/tool_lock.py`
* `Billing`   — `src/compliance_agent/billing/service.py`,
                `src/compliance_agent/billing/models.py`,
                `src/compliance_agent/billing/stripe_service.py`,
                the billing gate of `src/compliance_agent/agent.py`
                and the `/run` handler of `src/compliance_agent/api/app.py`.

Database tables are modelled as in-memory lists, a transaction as a pure
function from state to state that either returns the committed state or an
error (a raised exception; rollback discards the partial state), and Python
integers as `Int`.
-/

namespace ToolLock

/-- Character class `[a-z0-9]` of the canonicalization regex, by code point. -/
def isLowerAlnum (c : Char) : Bool :=
  (97 ≤ c.toNat && c.toNat ≤ 122) || (48 ≤ c.toNat && c.toNat ≤ 57)

/-- One character step of `re.sub(r"[^a-z0-9\s]", " ", value)`:
everything outside `[a-z0-9]` and whitespace becomes a space. -/
def sanitizeChar (c : Char) : Char :=
  if isLowerAlnum c || c.isWhitespace then c else ' '

/-- Split into maximal whitespace-free words (`str.split()`), accumulator form. -/
def wordsAux : List Char → List Char → List (List Char)
  | [], acc => if acc.isEmpty then [] else [acc.reverse]
  | c :: cs, acc =>
    if c.isWhitespace then
      if acc.isEmpty then wordsAux cs [] else acc.reverse :: wordsAux cs []
    else
      wordsAux cs (c :: acc)

/-- `str.split()` on a character list. -/
def wordsOf (l : List Char) : List (List Char) := wordsAux l []

/-- `" ".join(words)`. -/
def joinWords : List (List Char) → List Char
  | [] => []
  | [w] => w
  | w :: ws => w ++ ' ' :: joinWords ws

/-- `canonicalize_tool_name` on a character list: lowercase, strip punctuation
to spaces, collapse whitespace runs and trim (the final
`re.sub(r"\s+", " ", ...).strip()` is exactly split-then-join-with-spaces). -/
def canonList (l : List Char) : List Char :=
  joinWords (wordsOf (l.map (fun c => sanitizeChar (Char.toLower c))))

/-- `canonicalize_tool_name(value)`: normalize a tool name for matching. -/
def canonicalize_tool_name (s : String) : String := ⟨canonList s.data⟩

/-- Python substring test `needle in hay`. -/
def isSubstring (needle : List Char) : List Char → Bool
  | [] => needle.isEmpty
  | h :: t => List.isPrefixOf needle (h :: t) || isSubstring needle t

/-- Truthiness of `s.strip()`: some character is not whitespace. -/
def hasNonWs (l : List Char) : Bool := l.any (fun c => !c.isWhitespace)

/-- Word alternatives of the regex `\b(assess|evaluate|analy[sz]e|review|check)\b`.
Over the canonical alphabet (lowercase alphanumerics separated by single
spaces) a `\b`-delimited alternation matches iff some whole token equals one
of the alternatives. -/
def intentWords : List (List Char) :=
  ["assess".data, "evaluate".data, "analyse".data, "analyze".data,
   "review".data, "check".data]

/-- Word alternatives of the regex `\b(tool|model|ai)\b`. -/
def objectWords : List (List Char) := ["tool".data, "model".data, "ai".data]

/-- `is_new_tool_attempt_in_follow_up(message, canonical_tool)`; the local
variables `msg`, `canonical` and `words` of the source are written out as
`canonList message.data`, `canonList canonical_tool.data` and
`wordsOf (canonList message.data)`. -/
def is_new_tool_attempt_in_follow_up (message canonical_tool : String) : Bool :=
  if !hasNonWs message.data || !hasNonWs canonical_tool.data then
    false
  else if (canonList message.data).isEmpty || (canonList canonical_tool.data).isEmpty then
    false
  else if isSubstring (canonList canonical_tool.data) (canonList message.data) then
    false
  else if (wordsOf (canonList canonical_tool.data)).any
      (fun t => (wordsOf (canonList message.data)).contains t) then
    false
  else if (wordsOf (canonList message.data)).length ≤ 5
      && !message.data.contains '?' && !message.data.contains '.' then
    true
  else if ((wordsOf (canonList message.data)).any (fun t => intentWords.contains t))
      && (((wordsOf (canonList message.data)).any (fun t => objectWords.contains t))
          || 3 ≤ (wordsOf (canonList message.data)).length) then
    true
  else
    false

/-- Result record of `validate_follow_up_tool_lock`. -/
structure ToolLockResult where
  allowed : Bool
  reason : String := ""
deriving DecidableEq

/-- `validate_follow_up_tool_lock(message, canonical_tool)`. -/
def validate_follow_up_tool_lock (message canonical_tool : String) : ToolLockResult :=
  if is_new_tool_attempt_in_follow_up message canonical_tool then
    { allowed := false
      reason := "Detected a request to assess a different AI tool in this follow-up. Start a new assessment session to consume another credit." }
  else
    { allowed := true }

/-- A word produced by splitting: nonempty and whitespace-free. -/
def GoodWord (w : List Char) : Prop :=
  w ≠ [] ∧ ∀ c ∈ w, c.isWhitespace = false

end ToolLock

namespace Billing

/-- `LedgerReason` enum of `models.py`. `REQUEST_DEBIT` is the reason used by the
daily-quota variant of the service (referenced by the unit tests and by the
spec, not present in the enum under `src/`). -/
inductive LedgerReason where
  | FREE_GRANT
  | PURCHASE
  | SESSION_DEBIT
  | ADJUSTMENT
  | REFUND
  | REQUEST_DEBIT
deriving DecidableEq

/-- `BillingSessionStatus` enum of `models.py`. -/
inductive BillingSessionStatus where
  | ACTIVE
  | CLOSED
deriving DecidableEq

/-- Row of `billing_users`. Timestamps are `Nat` instants; the `created_at`
and `updated_at` audit columns, which no modelled operation reads, are
omitted. -/
structure BillingUser where
  id : String
  google_sub : String
  email : String
  free_credits_granted_at : Option Nat
deriving DecidableEq

/-- Row of `credit_ledger` (one immutable row per balance-affecting event). -/
structure CreditLedgerEntry where
  id : String
  user_id : String
  delta : Int
  reason : LedgerReason
  session_id : Option String := none
  stripe_event_id : Option String := none
  stripe_checkout_session_id : Option String := none
  idempotency_key : Option String := none
  balance_after : Int
  metadata_json : List (String × String) := []
  created_at : Nat := 0
deriving DecidableEq

/-- Row of `assessment_billing_sessions`. -/
structure AssessmentBillingSession where
  session_id : String
  user_id : String
  canonical_tool_name : String
  canonical_tool_fingerprint : String
  credit_ledger_debit_id : String
  status : BillingSessionStatus
deriving DecidableEq

/-- Row of `stripe_customers`. -/
structure StripeCustomer where
  user_id : String
  stripe_customer_id : String
deriving DecidableEq

/-- Row of `stripe_checkout_sessions`. -/
structure StripeCheckoutSession where
  id : String
  user_id : String
  pack_code : String
  credits_to_grant : Int
  amount_minor : Int
  currency : String
  stripe_checkout_session_id : String
  status : String
deriving DecidableEq

/-- Row of `stripe_webhook_events` (webhook idempotency guard). -/
structure StripeWebhookEvent where
  stripe_event_id : String
  event_type : String
  payload_hash : String
deriving DecidableEq

/-- The billing database. `credit_accounts` is the association list
`accounts` from user id to integer balance; the other tables are row lists. -/
structure BState where
  users : List BillingUser
  accounts : List (String × Int)
  ledger : List CreditLedgerEntry
  sessions : List AssessmentBillingSession
  stripe_customers : List StripeCustomer
  checkout_sessions : List StripeCheckoutSession
  webhook_events : List StripeWebhookEvent
deriving DecidableEq

/-- The empty database (schema freshly created). -/
def initState : BState := ⟨[], [], [], [], [], [], []⟩

/-- Exceptions raised by the billing flows. `insufficientCredits` embeds
`InsufficientCreditsError`, `newToolInFollowUp` embeds
`NewToolInFollowUpError`, `valueError` embeds Python `ValueError`;
`dailyLimitReached` is the "daily limit reached" condition of the
daily-quota variant, carrying the reset instant (spec §4.2(b)). -/
inductive BillingError where
  | insufficientCredits (msg : String)
  | newToolInFollowUp (msg : String)
  | valueError (msg : String)
  | typeError (msg : String)
  | dailyLimitReached (resetAt : Nat) (msg : String)
deriving DecidableEq

/-- `BillingUserRef` dataclass. -/
structure BillingUserRef where
  id : String
  email : String
deriving DecidableEq

/-- `CreditState` dataclass. -/
structure CreditState where
  credits_balance : Int
  free_credits_remaining : Int
  paid_credits_remaining : Int
  can_start_new_session : Bool
  stripe_customer_exists : Bool
deriving DecidableEq

/-- Lookup in an association list (first matching key). -/
def lookupA (k : String) : List (String × Int) → Option Int
  | [] => none
  | (k2, v) :: rest => if k2 = k then some v else lookupA k rest

/-- Write-through on an association list: replace the first row with the key,
or append a fresh row (row creation). -/
def setA (k : String) (v : Int) : List (String × Int) → List (String × Int)
  | [] => [(k, v)]
  | (k2, v2) :: rest => if k2 = k then (k, v) :: rest else (k2, v2) :: setA k v rest

/-- `SELECT ... WHERE google_sub = :sub` (first matching row). -/
def findUserBySub (st : BState) (google_sub : String) : Option BillingUser :=
  st.users.find? (fun u => u.google_sub == google_sub)

/-- Update the first user row with the given subject in place. -/
def updateUserBySub (google_sub : String) (f : BillingUser → BillingUser) :
    List BillingUser → List BillingUser
  | [] => []
  | u :: rest =>
    if u.google_sub == google_sub then f u :: rest
    else u :: updateUserBySub google_sub f rest

/-- `session.get(AssessmentBillingSession, session_id)`. -/
def findSession (st : BState) (session_id : String) : Option AssessmentBillingSession :=
  st.sessions.find? (fun s => s.session_id == session_id)

/-- `BillingService._balance_for_user`: 0 when the account row is absent. -/
def balance_for_user (st : BState) (user_id : String) : Int :=
  (lookupA user_id st.accounts).getD 0

/-- The body of one `_ensure_user_once` transaction after the user row
`user0` has been looked up or freshly inserted (already part of `st`):
refresh the email, create the credit account when absent (balance 0), and
issue the one-time free grant when `free_credits_granted_at` is unset. -/
def ensure_user_body (freeCredits : Int) (now : Nat) (newEntryId : String)
    (st : BState) (user0 : BillingUser) (email : String) : BState × BillingUserRef :=
  let bal0 := (lookupA user0.id st.accounts).getD 0
  if user0.free_credits_granted_at = none then
    let bal1 := bal0 + freeCredits
    ({ st with
        users := updateUserBySub user0.google_sub
          (fun _ => { user0 with email := email, free_credits_granted_at := some now }) st.users,
        accounts := setA user0.id bal1 st.accounts,
        ledger := st.ledger ++ [{
          id := newEntryId,
          user_id := user0.id,
          delta := freeCredits,
          reason := LedgerReason.FREE_GRANT,
          balance_after := bal1,
          metadata_json := [("source", "signup")],
          idempotency_key := some ("free-grant:" ++ user0.id),
          created_at := now }] },
     { id := user0.id, email := email })
  else
    ({ st with
        users := updateUserBySub user0.google_sub
          (fun _ => { user0 with email := email }) st.users,
        accounts := setA user0.id bal0 st.accounts },
     { id := user0.id, email := email })

/-- `BillingService._ensure_user_once`: one transaction that looks the user
up by subject (locked for update), creates the row when absent, and runs
`ensure_user_body`. -/
def ensure_user_once (freeCredits : Int) (now : Nat) (newUserId newEntryId : String)
    (st : BState) (google_sub email : String) : BState × BillingUserRef :=
  match findUserBySub st google_sub with
  | some u => ensure_user_body freeCredits now newEntryId st u email
  | none =>
    let u : BillingUser :=
      { id := newUserId, google_sub := google_sub, email := email,
        free_credits_granted_at := none }
    ensure_user_body freeCredits now newEntryId { st with users := st.users ++ [u] } u email

/-- The concurrent transaction of the first-login race: another request's
`_ensure_user_once` for the same subject, with its own generated ids,
email claim and clock reading. -/
structure EnsureRace where
  racer_user_id : String
  racer_entry_id : String
  racer_email : String
  racer_now : Nat
deriving DecidableEq

/-- `BillingService.ensure_user`: runs `_ensure_user_once` and retries
exactly once when the insert of the new user row hits the unique constraint
on `google_sub` (`IntegrityError`). The race is modelled explicitly: when
`race` is `some r` and no row with the subject exists yet, the concurrent
transaction `r` commits first, our attempt's insert then violates the
constraint and is rolled back whole, and the operation is retried once
against the state the racer committed. When the user row already exists no
insert is attempted, so no `IntegrityError` can occur. -/
def ensure_user (freeCredits : Int) (now : Nat) (newUserId newEntryId : String)
    (st : BState) (google_sub email : String) (race : Option EnsureRace) :
    BState × BillingUserRef :=
  match race with
  | none => ensure_user_once freeCredits now newUserId newEntryId st google_sub email
  | some r =>
    if findUserBySub st google_sub = none then
      let st1 := (ensure_user_once freeCredits r.racer_now r.racer_user_id r.racer_entry_id
        st google_sub r.racer_email).1
      ensure_user_once freeCredits now newUserId newEntryId st1 google_sub email
    else
      ensure_user_once freeCredits now newUserId newEntryId st google_sub email

/-- `BillingService.consume_credit_for_new_session`: atomically consume one
credit and lock the canonical tool for a new session. A raised error rolls
the transaction back, so the state is simply not returned. -/
def consume_credit_for_new_session (now : Nat) (newEntryId : String) (st : BState)
    (user_id session_id ai_tool : String) : Except BillingError (BState × Int) :=
  match findSession st session_id with
  | some _ => Except.ok (st, balance_for_user st user_id)
  | none =>
    match lookupA user_id st.accounts with
    | none =>
      Except.error (BillingError.insufficientCredits
        "No credits available for a new assessment session")
    | some bal =>
      if bal < 1 then
        Except.error (BillingError.insufficientCredits
          "No credits available for a new assessment session")
      else
        let bal1 := bal - 1
        Except.ok
          ({ st with
              accounts := setA user_id bal1 st.accounts,
              ledger := st.ledger ++ [{
                id := newEntryId,
                user_id := user_id,
                delta := -1,
                reason := LedgerReason.SESSION_DEBIT,
                session_id := some session_id,
                balance_after := bal1,
                metadata_json := [("ai_tool", ai_tool)],
                idempotency_key := some ("session-debit:" ++ user_id ++ ":" ++ session_id),
                created_at := now }],
              sessions := st.sessions ++ [{
                session_id := session_id,
                user_id := user_id,
                canonical_tool_name := ai_tool,
                canonical_tool_fingerprint := ToolLock.canonicalize_tool_name ai_tool,
                credit_ledger_debit_id := newEntryId,
                status := BillingSessionStatus.ACTIVE }] },
           bal1)

/-- `BillingService.get_credit_state`: read-only aggregation over the
account balance and the ledger, split by reason. -/
def get_credit_state (st : BState) (user_id : String) : CreditState :=
  let balance := balance_for_user st user_id
  let free_grant_total := ((st.ledger.filter
    (fun e => e.user_id == user_id && e.reason == LedgerReason.FREE_GRANT)).map
      (fun e => e.delta)).sum
  let debit_total := ((st.ledger.filter
    (fun e => e.user_id == user_id && e.reason == LedgerReason.SESSION_DEBIT)).map
      (fun e => -e.delta)).sum
  let free_remaining := max (free_grant_total - debit_total) 0
  let paid_remaining := max (balance - free_remaining) 0
  { credits_balance := balance,
    free_credits_remaining := free_remaining,
    paid_credits_remaining := paid_remaining,
    can_start_new_session := decide (0 < balance),
    stripe_customer_exists :=
      (st.stripe_customers.find? (fun c => c.user_id == user_id)).isSome }

/-- `BillingService.apply_purchase_credits`: grant credits from a paid
checkout event, idempotent by the ledger key `"stripe:" + event_id`. -/
def apply_purchase_credits (now : Nat) (newEntryId : String) (st : BState)
    (user_id : String) (credits : Int) (stripe_event_id stripe_checkout_session_id : String)
    (metadata : List (String × String)) : Except BillingError (BState × Int) :=
  if st.ledger.any (fun e => e.idempotency_key == some ("stripe:" ++ stripe_event_id)) then
    Except.ok (st, balance_for_user st user_id)
  else
    match lookupA user_id st.accounts with
    | none =>
      Except.error (BillingError.valueError
        ("Credit account not found for user_id=" ++ user_id))
    | some bal =>
      let bal1 := bal + credits
      Except.ok
        ({ st with
            accounts := setA user_id bal1 st.accounts,
            ledger := st.ledger ++ [{
              id := newEntryId,
              user_id := user_id,
              delta := credits,
              reason := LedgerReason.PURCHASE,
              stripe_event_id := some stripe_event_id,
              stripe_checkout_session_id := some stripe_checkout_session_id,
              balance_after := bal1,
              idempotency_key := some ("stripe:" ++ stripe_event_id),
              metadata_json := metadata,
              created_at := now }] },
         bal1)

/-- `BillingService.find_user_by_email` (webhook metadata fallback). -/
def find_user_by_email (st : BState) (email : String) : Option BillingUserRef :=
  (st.users.find? (fun u => u.email == email)).map (fun u => ⟨u.id, u.email⟩)

/-- `data.object` of a `checkout.session.completed` Stripe event: the
checkout-session id and the metadata keys the processor reads. The
`request_units` metadata value, a decimal string in the payload, is carried
already parsed as an integer. -/
structure StripeEventObject where
  id : String
  meta_user_id : Option String
  meta_email : Option String
  meta_request_units : Int
deriving DecidableEq

/-- A verified Stripe webhook event as seen by `process_checkout_completed`. -/
structure StripeEvent where
  id : String
  event_type : String
  obj : StripeEventObject
deriving DecidableEq

/-- The `user_id` resolution of `process_checkout_completed` (metadata
`user_id`, falling back to resolving the metadata `email`), with Python
falsiness: the empty string counts as missing. -/
def resolve_event_user (st : BState) (event : StripeEvent) : Option String :=
  let raw :=
    if event.obj.meta_user_id.getD "" = "" then
      match event.obj.meta_email with
      | some e =>
        if e = "" then event.obj.meta_user_id.getD ""
        else
          match find_user_by_email st e with
          | some r => r.id
          | none => ""
      | none => event.obj.meta_user_id.getD ""
    else event.obj.meta_user_id.getD ""
  if raw = "" then none else some raw

/-- `StripeService.process_checkout_completed`: webhook-idempotency check,
beneficiary resolution, then the grant delegation. The delegation
(stripe_service.py lines 205-211) passes the keyword argument
`request_units`, but the keyword-only signature of
`apply_purchase_credits` (service.py lines 189-197) names that parameter
`credits`, so Python raises `TypeError` at the call itself — before any
grant, before the `StripeWebhookEvent` row is inserted, and before the
checkout record is marked completed; the rest of the source function is
unreachable. The reachable paths return the `(processed, status)` pair of
the source. -/
def process_checkout_completed (now : Nat) (newEntryId : String) (st : BState)
    (event : StripeEvent) (payload_hash : String) :
    Except BillingError (BState × Bool × String) :=
  if st.webhook_events.any (fun w => w.stripe_event_id == event.id) then
    Except.ok (st, false, "already_processed")
  else
    match resolve_event_user st event with
    | none =>
      Except.error (BillingError.valueError
        "Could not resolve user_id from Stripe webhook metadata")
    | some _ =>
      Except.error (BillingError.typeError
        "BillingService.apply_purchase_credits() got an unexpected keyword argument \x27request_units\x27")

/-- Ledger rows of reason `REQUEST_DEBIT` for a user whose timestamp falls
in `[lo, hi)` — the current-UTC-day count of the daily-quota variant. -/
def dailyCount (st : BState) (user_id : String) (lo hi : Nat) : Nat :=
  (st.ledger.filter (fun e =>
    e.user_id == user_id && e.reason == LedgerReason.REQUEST_DEBIT
      && decide (lo ≤ e.created_at) && decide (e.created_at < hi))).length

/-- Modelled from the spec: `consume_daily_credit_for_request` — the
daily-quota variant of the consume operation, invoked by the assessment path
(`agent.execute`) but absent from the billing service source under `src/`;
behaviour follows spec §4.2(b): UTC-day window `[day_start, next_day_start)`
recomputed from the clock, idempotency by a key derived from
`(user_id, request_id)`, count-based limit check signalling the reset
instant, insertion of one `REQUEST_DEBIT` row (no balance mutation), and
result `limit - (count + 1)`. -/
def consume_daily_credit_for_request (dailyLimit : Nat) (now : Nat) (newEntryId : String)
    (st : BState) (user_id request_id session_id ai_tool : String) :
    Except BillingError (BState × Int) :=
  let day_start := now / 86400 * 86400
  let next_day_start := day_start + 86400
  let key := "request-debit:" ++ user_id ++ ":" ++ request_id
  if st.ledger.any (fun e => e.idempotency_key == some key) then
    Except.ok (st, (dailyLimit : Int) - (dailyCount st user_id day_start next_day_start : Int))
  else
    let count := dailyCount st user_id day_start next_day_start
    if dailyLimit ≤ count then
      Except.error (BillingError.dailyLimitReached next_day_start "Daily request limit reached")
    else
      Except.ok
        ({ st with
            ledger := st.ledger ++ [{
              id := newEntryId,
              user_id := user_id,
              delta := -1,
              reason := LedgerReason.REQUEST_DEBIT,
              session_id := some session_id,
              balance_after := balance_for_user st user_id,
              metadata_json := [("ai_tool", ai_tool), ("request_id", request_id)],
              idempotency_key := some key,
              created_at := now }] },
         (dailyLimit : Int) - ((count : Int) + 1))

/-- The billing gate of `agent.execute` (agent.py lines 76–84): when billing
is enabled, a missing (or Python-falsy) authenticated subject raises
`InsufficientCreditsError`, otherwise one daily request credit is consumed;
when billing is disabled the gate is a no-op. -/
def agent_billing_gate (enabled : Bool) (dailyLimit : Nat) (now : Nat) (newEntryId : String)
    (st : BState) (user_sub : Option String) (request_id session_id ai_tool : String) :
    Except BillingError BState :=
  if enabled then
    if user_sub.getD "" = "" then
      Except.error (BillingError.insufficientCredits "Missing authenticated billing user")
    else
      (consume_daily_credit_for_request dailyLimit now newEntryId st
        (user_sub.getD "") request_id session_id ai_tool).map (fun p => p.1)
  else
    Except.ok st

/-- HTTP status the `/run` handler of `api/app.py` answers with for a billing
outcome: `InsufficientCreditsError` is caught and mapped to 402; any other
exception propagates to the framework as a generic 500 server error; success
is a 200 response. -/
def run_http_status (r : Except BillingError BState) : Nat :=
  match r with
  | Except.error (BillingError.insufficientCredits _) => 402
  | Except.error _ => 500
  | Except.ok _ => 200

/-- One balance-mutating call into the service, with the generated ids and
clock readings that the call would draw. -/
inductive BillingOp where
  | ensureUser (google_sub email : String) (now : Nat) (newUserId newEntryId : String)
      (race : Option EnsureRace)
  | consume (user_id session_id ai_tool : String) (now : Nat) (newEntryId : String)
  | purchase (user_id : String) (credits : Int) (stripe_event_id stripe_checkout_session_id : String)
      (metadata : List (String × String)) (now : Nat) (newEntryId : String)
deriving DecidableEq

/-- Run one operation; a raised error rolls the transaction back, leaving
the state unchanged. -/
def applyOp (freeCredits : Int) (st : BState) : BillingOp → BState
  | BillingOp.ensureUser sub email now nuid neid race =>
    (ensure_user freeCredits now nuid neid st sub email race).1
  | BillingOp.consume u sid tool now neid =>
    match consume_credit_for_new_session now neid st u sid tool with
    | Except.ok (st1, _) => st1
    | Except.error _ => st
  | BillingOp.purchase u credits eid cid md now neid =>
    match apply_purchase_credits now neid st u credits eid cid md with
    | Except.ok (st1, _) => st1
    | Except.error _ => st

/-- Run a sequence of operations from a starting state. -/
def applyOps (freeCredits : Int) (st : BState) : List BillingOp → BState
  | [] => st
  | op :: ops => applyOps freeCredits (applyOp freeCredits st op) ops

/-- A purchase grants a non-negative amount (the pack table maps to positive
unit counts); the other operations carry no numeric input. -/
def OpWf : BillingOp → Prop
  | BillingOp.purchase _ credits _ _ _ _ _ => 0 ≤ credits
  | _ => True

/-- The ledger rows of one user, in insertion order. -/
def ledgerFor (st : BState) (user_id : String) : List CreditLedgerEntry :=
  st.ledger.filter (fun e => e.user_id == user_id)

/-- Sum of the signed deltas over one user's ledger rows. -/
def ledgerSum (st : BState) (user_id : String) : Int :=
  ((ledgerFor st user_id).map (fun e => e.delta)).sum

/-- The claimed store invariant: every balance equals the ledger-delta sum
for that user and is non-negative. -/
def Inv (st : BState) : Prop :=
  ∀ u : String, balance_for_user st u = ledgerSum st u ∧ 0 ≤ balance_for_user st u

/-- One mutation's effect on each user: either nothing, or exactly one
appended ledger row whose delta is the balance change and whose
`balance_after` is the post-mutation balance. -/
def LedgerStep (st st1 : BState) : Prop :=
  ∀ u : String,
    (ledgerFor st1 u = ledgerFor st u ∧ balance_for_user st1 u = balance_for_user st u) ∨
    (∃ e : CreditLedgerEntry,
      ledgerFor st1 u = ledgerFor st u ++ [e] ∧
      e.delta = balance_for_user st1 u - balance_for_user st u ∧
      e.balance_after = balance_for_user st1 u)

/-- `LedgerStep` holds between every consecutive pair of states along a run. -/
def StepsOk (freeCredits : Int) : BState → List BillingOp → Prop
  | _, [] => True
  | st, op :: ops =>
    LedgerStep st (applyOp freeCredits st op) ∧
    StepsOk freeCredits (applyOp freeCredits st op) ops

end Billing

namespace ToolLock

theorem map_fixed_eq_self {l : List Char} {f : Char → Char}
    (h : ∀ c ∈ l, f c = c) : l.map f = l := by
  induction l with
  | nil => rfl
  | cons a t ih =>
    simp only [List.map_cons, h a (by simp)]
    rw [ih fun c hc => h c (by simp [hc])]

theorem wordsAux_append_word {w : List Char}
    (hw : ∀ c ∈ w, c.isWhitespace = false) :
    ∀ (l acc : List Char), wordsAux (w ++ l) acc = wordsAux l (w.reverse ++ acc) := by
  induction w with
  | nil => intro l acc; simp
  | cons c cs ih =>
    intro l acc
    have hc : c.isWhitespace = false := hw c (by simp)
    simp only [List.cons_append, wordsAux, hc, Bool.false_eq_true, if_false, List.append_eq]
    rw [ih (fun x hx => hw x (by simp [hx])) l (c :: acc)]
    simp

theorem wordsAux_ws_cons {c : Char} (h : c.isWhitespace = true) (l acc : List Char) :
    wordsAux (c :: l) acc =
      if acc.isEmpty then wordsAux l [] else acc.reverse :: wordsAux l [] := by
  simp [wordsAux, h]

theorem wordsOf_joinWords : ∀ ws : List (List Char),
    (∀ w ∈ ws, GoodWord w) → wordsOf (joinWords ws) = ws := by
  intro ws
  induction ws with
  | nil => intro _; rfl
  | cons w ws ih =>
    intro hgood
    have hw := hgood w (by simp)
    cases ws with
    | nil =>
      show wordsAux (joinWords [w]) [] = [w]
      have : joinWords [w] = w ++ [] := by simp [joinWords]
      rw [this, wordsAux_append_word hw.2]
      simp only [wordsAux, List.append_nil]
      rw [if_neg (by simp [List.isEmpty_iff, hw.1])]
      simp
    | cons w2 ws2 =>
      show wordsAux (joinWords (w :: w2 :: ws2)) [] = w :: w2 :: ws2
      have hj : joinWords (w :: w2 :: ws2) = w ++ ' ' :: joinWords (w2 :: ws2) := rfl
      rw [hj, wordsAux_append_word hw.2, wordsAux_ws_cons (by decide)]
      rw [if_neg (by simp [List.isEmpty_iff, hw.1])]
      simp only [List.append_nil, List.reverse_reverse]
      have := ih (fun x hx => hgood x (by simp [hx]))
      rw [show wordsAux (joinWords (w2 :: ws2)) [] = wordsOf (joinWords (w2 :: ws2)) from rfl, this]

theorem wordsAux_good : ∀ (l acc : List Char), (∀ c ∈ acc, c.isWhitespace = false) →
    ∀ w ∈ wordsAux l acc, (GoodWord w ∧ ∀ c ∈ w, c ∈ l ∨ c ∈ acc) := by
  intro l
  induction l with
  | nil =>
    intro acc hacc w hw
    simp only [wordsAux] at hw
    by_cases he : acc.isEmpty
    · simp [he] at hw
    · rw [if_neg he] at hw
      simp only [List.mem_singleton] at hw
      subst hw
      refine ⟨⟨?_, ?_⟩, ?_⟩
      · simp only [List.isEmpty_iff] at he
        simp [he]
      · intro c hc; exact hacc c (List.mem_reverse.1 hc)
      · intro c hc; exact Or.inr (List.mem_reverse.1 hc)
  | cons a t ih =>
    intro acc hacc w hw
    by_cases ha : a.isWhitespace
    · rw [wordsAux_ws_cons ha] at hw
      by_cases he : acc.isEmpty
      · rw [if_pos he] at hw
        have := ih [] (by simp) w hw
        exact ⟨this.1, fun c hc => (this.2 c hc).elim
          (fun h => Or.inl (by simp [h])) (fun h => by simp at h)⟩
      · rw [if_neg he] at hw
        rcases List.mem_cons.1 hw with hw | hw
        · subst hw
          refine ⟨⟨?_, ?_⟩, ?_⟩
          · simp only [List.isEmpty_iff] at he
            simp [he]
          · intro c hc; exact hacc c (List.mem_reverse.1 hc)
          · intro c hc; exact Or.inr (List.mem_reverse.1 hc)
        · have := ih [] (by simp) w hw
          exact ⟨this.1, fun c hc => (this.2 c hc).elim
            (fun h => Or.inl (by simp [h])) (fun h => by simp at h)⟩
    · have ha' : a.isWhitespace = false := by simpa using ha
      simp only [wordsAux, ha', Bool.false_eq_true, if_false] at hw
      have := ih (a :: acc) (by
        intro c hc
        rcases List.mem_cons.1 hc with h | h
        · subst h; exact ha'
        · exact hacc c h) w hw
      refine ⟨this.1, fun c hc => ?_⟩
      rcases this.2 c hc with h | h
      · exact Or.inl (by simp [h])
      · rcases List.mem_cons.1 h with h | h
        · exact Or.inl (by simp [h])
        · exact Or.inr h

theorem wordsOf_good (l : List Char) :
    ∀ w ∈ wordsOf l, GoodWord w ∧ ∀ c ∈ w, c ∈ l := by
  intro w hw
  have := wordsAux_good l [] (by simp) w hw
  exact ⟨this.1, fun c hc => (this.2 c hc).elim id (fun h => by simp at h)⟩

theorem toLower_of_isLowerAlnum {c : Char} (h : isLowerAlnum c = true) :
    Char.toLower c = c := by
  simp only [isLowerAlnum, Bool.or_eq_true, Bool.and_eq_true, decide_eq_true_eq] at h
  unfold Char.toLower
  rw [if_neg]
  omega

theorem sanitizeChar_cases (x : Char) :
    (sanitizeChar x).isWhitespace = true ∨ isLowerAlnum (sanitizeChar x) = true := by
  unfold sanitizeChar
  by_cases h : (isLowerAlnum x || x.isWhitespace) = true
  · rw [if_pos h]
    rcases (show isLowerAlnum x = true ∨ x.isWhitespace = true by simpa using h) with h | h
    · exact Or.inr h
    · exact Or.inl h
  · rw [if_neg h]
    exact Or.inl (by decide)

theorem sanitize_toLower_ws {c : Char} (h : c.isWhitespace = true) :
    sanitizeChar (Char.toLower c) = c := by
  simp only [Char.isWhitespace, Bool.or_eq_true, decide_eq_true_eq] at h
  rcases h with ((h | h) | h) | h <;> subst h <;> decide

theorem sanitize_toLower_fixed {c : Char} (hws : c.isWhitespace = false)
    {x : Char} (hx : sanitizeChar (Char.toLower x) = c) :
    sanitizeChar (Char.toLower c) = c := by
  rcases sanitizeChar_cases (Char.toLower x) with h | h
  · rw [hx] at h
    rw [h] at hws
    cases hws
  · rw [hx] at h
    rw [toLower_of_isLowerAlnum h]
    unfold sanitizeChar
    rw [if_pos (by simp [h])]

theorem mem_joinWords : ∀ (ws : List (List Char)) (c : Char), c ∈ joinWords ws →
    c = ' ' ∨ ∃ w ∈ ws, c ∈ w := by
  intro ws
  induction ws with
  | nil => intro c hc; simp [joinWords] at hc
  | cons w ws ih =>
    intro c hc
    cases ws with
    | nil =>
      simp only [joinWords] at hc
      exact Or.inr ⟨w, by simp, hc⟩
    | cons w2 ws2 =>
      have hj : joinWords (w :: w2 :: ws2) = w ++ ' ' :: joinWords (w2 :: ws2) := rfl
      rw [hj] at hc
      rcases List.mem_append.1 hc with h | h
      · exact Or.inr ⟨w, by simp, h⟩
      · rcases List.mem_cons.1 h with h | h
        · exact Or.inl h
        · rcases ih c h with h | ⟨w3, hw3, hcw3⟩
          · exact Or.inl h
          · exact Or.inr ⟨w3, by simp [hw3], hcw3⟩

theorem canonList_map_fixed (l : List Char) :
    (canonList l).map (fun c => sanitizeChar (Char.toLower c)) = canonList l := by
  apply map_fixed_eq_self
  intro c hc
  rcases mem_joinWords _ c hc with h | ⟨w, hw, hcw⟩
  · subst h; decide
  · have hg := wordsOf_good _ w hw
    have hcl : c ∈ l.map (fun x => sanitizeChar (Char.toLower x)) := hg.2 c hcw
    rcases List.mem_map.1 hcl with ⟨x, _, hx⟩
    exact sanitize_toLower_fixed (hg.1.2 c hcw) hx

theorem canonList_idem (l : List Char) : canonList (canonList l) = canonList l := by
  conv_lhs => rw [canonList, canonList_map_fixed]
  rw [show canonList l = joinWords (wordsOf (l.map (fun c => sanitizeChar (Char.toLower c)))) from rfl]
  rw [wordsOf_joinWords _ (fun w hw => (wordsOf_good _ w hw).1)]

theorem wordsAux_allWs : ∀ l : List Char, (∀ c ∈ l, c.isWhitespace = true) →
    wordsAux l [] = [] := by
  intro l
  induction l with
  | nil => intro _; rfl
  | cons a t ih =>
    intro h
    rw [wordsAux_ws_cons (h a (by simp))]
    simp only [List.isEmpty_nil, if_true]
    exact ih fun c hc => h c (by simp [hc])

theorem canonList_eq_nil_of_allWs {l : List Char} (h : hasNonWs l = false) :
    canonList l = [] := by
  have hws : ∀ c ∈ l, c.isWhitespace = true := by
    intro c hc
    by_contra hcon
    have : l.any (fun c => !c.isWhitespace) = true :=
      List.any_eq_true.2 ⟨c, hc, by simpa using hcon⟩
    rw [hasNonWs] at h
    rw [this] at h
    cases h
  have hnil : wordsOf (l.map (fun c => sanitizeChar (Char.toLower c))) = [] := by
    rw [wordsOf]
    apply wordsAux_allWs
    intro c hc
    rcases List.mem_map.1 hc with ⟨x, hx, hcx⟩
    rw [← hcx, sanitize_toLower_ws (hws x hx)]
    exact hws x hx
  rw [canonList, hnil]
  rfl

theorem any_contains_iff {l ws : List (List Char)} :
    (l.any fun w => ws.contains w) = true ↔ ∃ w ∈ l, w ∈ ws := by
  rw [List.any_eq_true]
  constructor
  · rintro ⟨w, hw, hc⟩; exact ⟨w, hw, List.elem_iff.1 hc⟩
  · rintro ⟨w, hw, hc⟩; exact ⟨w, hw, List.elem_iff.2 hc⟩

theorem not_mem_of_contains_eq_false {l : List Char} {c : Char}
    (h : l.contains c = false) : c ∉ l := by
  intro hc
  have hmem := List.elem_iff.2 hc
  have hfalse : List.elem c l = false := h
  rw [hfalse] at hmem
  exact Bool.noConfusion hmem

theorem is_new_eq_false_iff (m t : String) :
    is_new_tool_attempt_in_follow_up m t = false ↔
      (canonList m.data = [] ∨ canonList t.data = [] ∨
       isSubstring (canonList t.data) (canonList m.data) = true ∨
       (∃ w ∈ wordsOf (canonList t.data), w ∈ wordsOf (canonList m.data)) ∨
       ¬ (((wordsOf (canonList m.data)).length ≤ 5 ∧ '?' ∉ m.data ∧ '.' ∉ m.data) ∨
          ((∃ w ∈ wordsOf (canonList m.data), w ∈ intentWords) ∧
           ((∃ w ∈ wordsOf (canonList m.data), w ∈ objectWords) ∨
            3 ≤ (wordsOf (canonList m.data)).length)))) := by
  unfold is_new_tool_attempt_in_follow_up
  split_ifs with h1 h2 h3 h4 h5 h6
  · refine iff_of_true rfl ?_
    rcases (show hasNonWs m.data = false ∨ hasNonWs t.data = false by simpa using h1) with h | h
    · exact Or.inl (canonList_eq_nil_of_allWs h)
    · exact Or.inr (Or.inl (canonList_eq_nil_of_allWs h))
  · refine iff_of_true rfl ?_
    rcases (show (canonList m.data).isEmpty = true ∨ (canonList t.data).isEmpty = true by
      simpa using h2) with h | h
    · exact Or.inl (List.isEmpty_iff.1 h)
    · exact Or.inr (Or.inl (List.isEmpty_iff.1 h))
  · exact iff_of_true rfl (Or.inr (Or.inr (Or.inl h3)))
  · exact iff_of_true rfl (Or.inr (Or.inr (Or.inr (Or.inl (any_contains_iff.1 h4)))))
  · refine iff_of_false (by simp) ?_
    have hH1 : (wordsOf (canonList m.data)).length ≤ 5 ∧ '?' ∉ m.data ∧ '.' ∉ m.data := by
      simp only [Bool.and_eq_true, decide_eq_true_eq, Bool.not_eq_true'] at h5
      exact ⟨h5.1.1, not_mem_of_contains_eq_false h5.1.2, not_mem_of_contains_eq_false h5.2⟩
    rintro (c1 | c2 | c3 | c4 | c5)
    · exact h2 (by simp [c1])
    · exact h2 (by simp [c2])
    · exact h3 c3
    · exact h4 (any_contains_iff.2 c4)
    · exact c5 (Or.inl hH1)
  · refine iff_of_false (by simp) ?_
    have hH2 : (∃ w ∈ wordsOf (canonList m.data), w ∈ intentWords) ∧
        ((∃ w ∈ wordsOf (canonList m.data), w ∈ objectWords) ∨
         3 ≤ (wordsOf (canonList m.data)).length) := by
      simp only [Bool.and_eq_true, Bool.or_eq_true, decide_eq_true_eq] at h6
      refine ⟨any_contains_iff.1 h6.1, ?_⟩
      rcases h6.2 with h | h
      · exact Or.inl (any_contains_iff.1 h)
      · exact Or.inr h
    rintro (c1 | c2 | c3 | c4 | c5)
    · exact h2 (by simp [c1])
    · exact h2 (by simp [c2])
    · exact h3 c3
    · exact h4 (any_contains_iff.2 c4)
    · exact c5 (Or.inr hH2)
  · refine iff_of_true rfl (Or.inr (Or.inr (Or.inr (Or.inr ?_))))
    rintro (hH1 | hH2)
    · apply h5
      simp only [Bool.and_eq_true, decide_eq_true_eq, Bool.not_eq_true']
      refine ⟨⟨hH1.1, ?_⟩, ?_⟩
      · cases hb : m.data.contains '?'
        · rfl
        · exact absurd (List.elem_iff.1 hb) hH1.2.1
      · cases hb : m.data.contains '.'
        · rfl
        · exact absurd (List.elem_iff.1 hb) hH1.2.2
    · apply h6
      simp only [Bool.and_eq_true, Bool.or_eq_true, decide_eq_true_eq]
      refine ⟨any_contains_iff.2 hH2.1, ?_⟩
      rcases hH2.2 with h | h
      · exact Or.inl (any_contains_iff.2 h)
      · exact Or.inr h

theorem validate_allowed_eq (m t : String) :
    (validate_follow_up_tool_lock m t).allowed = !(is_new_tool_attempt_in_follow_up m t) := by
  unfold validate_follow_up_tool_lock
  cases h : is_new_tool_attempt_in_follow_up m t <;> simp [h]

end ToolLock

namespace Billing

theorem lookupA_setA_self (k : String) (v : Int) (l : List (String × Int)) :
    lookupA k (setA k v l) = some v := by
  induction l with
  | nil => simp [setA, lookupA]
  | cons p rest ih =>
    obtain ⟨k2, v2⟩ := p
    by_cases h : k2 = k
    · simp [setA, h, lookupA]
    · simp [setA, h, lookupA, ih]

theorem lookupA_setA_ne {q k : String} (h : q ≠ k) (v : Int) (l : List (String × Int)) :
    lookupA q (setA k v l) = lookupA q l := by
  have hkq : ¬k = q := fun hk => h hk.symm
  induction l with
  | nil => simp [setA, lookupA, hkq]
  | cons p rest ih =>
    obtain ⟨k2, v2⟩ := p
    by_cases h2 : k2 = k
    · subst h2
      simp [setA, lookupA, hkq]
    · by_cases h3 : k2 = q
      · simp [setA, h2, lookupA, h3, hkq, h]
      · simp [setA, h2, lookupA, h3, ih]

theorem setA_self {k : String} {v : Int} {l : List (String × Int)}
    (h : lookupA k l = some v) : setA k v l = l := by
  induction l with
  | nil => simp [lookupA] at h
  | cons p rest ih =>
    obtain ⟨k2, v2⟩ := p
    by_cases h2 : k2 = k
    · subst h2
      have hv : v2 = v := by simpa [lookupA] using h
      subst hv
      simp [setA]
    · simp only [lookupA, if_neg h2] at h
      simp [setA, h2, ih h]

theorem filter_user_snoc (L : List CreditLedgerEntry) (e : CreditLedgerEntry) (u : String) :
    (L ++ [e]).filter (fun x => x.user_id == u) =
      L.filter (fun x => x.user_id == u) ++ (if e.user_id = u then [e] else []) := by
  by_cases h : e.user_id = u
  · simp [List.filter_append, List.filter, h]
  · have hb : (e.user_id == u) = false := beq_eq_false_iff_ne.2 h
    simp [List.filter_append, List.filter, hb, h]

theorem balance_eq_lookup (st : BState) (u : String) :
    balance_for_user st u = (lookupA u st.accounts).getD 0 := rfl

/-- `Inv` and `LedgerStep` only read the balance map and the ledger. -/
theorem Inv_of_eq {st st1 : BState}
    (hbal : ∀ u, balance_for_user st1 u = balance_for_user st u)
    (hled : st1.ledger = st.ledger) (h : Inv st) : Inv st1 := by
  intro u
  rw [hbal u]
  have : ledgerSum st1 u = ledgerSum st u := by
    rw [ledgerSum, ledgerSum, ledgerFor, ledgerFor, hled]
  rw [this]
  exact h u

theorem LedgerStep_of_eq {st st1 st2 : BState}
    (hbal : ∀ u, balance_for_user st2 u = balance_for_user st1 u)
    (hled : st2.ledger = st1.ledger) (h : LedgerStep st st1) : LedgerStep st st2 := by
  intro u
  have hlf : ledgerFor st2 u = ledgerFor st1 u := by rw [ledgerFor, ledgerFor, hled]
  rcases h u with ⟨h1, h2⟩ | ⟨e, h1, h2, h3⟩
  · exact Or.inl ⟨by rw [hlf, h1], by rw [hbal, h2]⟩
  · exact Or.inr ⟨e, by rw [hlf, h1], by rw [hbal, h2], by rw [hbal, h3]⟩

theorem LedgerStep_refl (st : BState) : LedgerStep st st := fun _ => Or.inl ⟨rfl, rfl⟩

/-- A mutating transaction: one account written, one ledger row appended,
delta and balance snapshot consistent. -/
theorem step_mut {st st1 : BState} {x : String} {b : Int} {e : CreditLedgerEntry}
    (hacc : st1.accounts = setA x b st.accounts)
    (hled : st1.ledger = st.ledger ++ [e])
    (heu : e.user_id = x)
    (hed : e.delta = b - balance_for_user st x)
    (heb : e.balance_after = b)
    (hInv : Inv st) (hb : 0 ≤ b) :
    Inv st1 ∧ LedgerStep st st1 := by
  have hbal : ∀ u, balance_for_user st1 u = if u = x then b else balance_for_user st u := by
    intro u
    rw [balance_eq_lookup, hacc]
    by_cases h : u = x
    · rw [if_pos h, h, lookupA_setA_self]
      rfl
    · rw [if_neg h, lookupA_setA_ne h]
      rfl
  have hlf : ∀ u, ledgerFor st1 u =
      ledgerFor st u ++ (if e.user_id = u then [e] else []) := by
    intro u
    rw [ledgerFor, hled, filter_user_snoc, ledgerFor]
  constructor
  · intro u
    have hsum : ledgerSum st1 u =
        ledgerSum st u + (if e.user_id = u then e.delta else 0) := by
      rw [ledgerSum, hlf u]
      by_cases h : e.user_id = u <;> simp [h, ledgerSum]
    by_cases h : u = x
    · subst h
      rw [hbal u, if_pos rfl, hsum, if_pos heu, hed, (hInv u).1]
      constructor
      · ring
      · exact hb
    · rw [hbal u, if_neg h, hsum, if_neg (by rw [heu]; exact fun hx => h hx.symm)]
      simpa using hInv u
  · intro u
    by_cases h : u = x
    · subst h
      refine Or.inr ⟨e, ?_, ?_, ?_⟩
      · rw [hlf u, if_pos heu]
      · rw [hbal u, if_pos rfl, hed]
      · rw [hbal u, if_pos rfl, heb]
    · refine Or.inl ⟨?_, ?_⟩
      · rw [hlf u, if_neg (by rw [heu]; exact fun hx => h hx.symm)]
        simp
      · rw [hbal u, if_neg h]

theorem lookupA_setA_getD (x q : String) (l : List (String × Int)) :
    (lookupA q (setA x ((lookupA x l).getD 0) l)).getD 0 = (lookupA q l).getD 0 := by
  by_cases h : q = x
  · rw [h, lookupA_setA_self]
    rfl
  · rw [lookupA_setA_ne h]

/-- The FREE_GRANT ledger row `_ensure_user_once` inserts. -/
def grantEntry (user_id entry_id : String) (freeCredits bal1 : Int) (now : Nat) :
    CreditLedgerEntry :=
  { id := entry_id,
    user_id := user_id,
    delta := freeCredits,
    reason := LedgerReason.FREE_GRANT,
    balance_after := bal1,
    metadata_json := [("source", "signup")],
    idempotency_key := some ("free-grant:" ++ user_id),
    created_at := now }

theorem ensure_body_grant (freeCredits : Int) (now : Nat) (newEntryId : String)
    (st : BState) (user0 : BillingUser) (email : String)
    (h : user0.free_credits_granted_at = none) :
    ensure_user_body freeCredits now newEntryId st user0 email =
      ({ st with
          users := updateUserBySub user0.google_sub
            (fun _ => { user0 with email := email, free_credits_granted_at := some now })
            st.users,
          accounts := setA user0.id ((lookupA user0.id st.accounts).getD 0 + freeCredits)
            st.accounts,
          ledger := st.ledger ++ [grantEntry user0.id newEntryId freeCredits
            ((lookupA user0.id st.accounts).getD 0 + freeCredits) now] },
       { id := user0.id, email := email }) := by
  simp only [ensure_user_body, h, if_pos]
  rfl

theorem ensure_body_no_grant (freeCredits : Int) (now : Nat) (newEntryId : String)
    (st : BState) (user0 : BillingUser) (email : String)
    (h : user0.free_credits_granted_at ≠ none) :
    ensure_user_body freeCredits now newEntryId st user0 email =
      ({ st with
          users := updateUserBySub user0.google_sub
            (fun _ => { user0 with email := email }) st.users,
          accounts := setA user0.id ((lookupA user0.id st.accounts).getD 0) st.accounts },
       { id := user0.id, email := email }) := by
  simp only [ensure_user_body, h]
  rw [if_neg not_false]

theorem ensure_once_of_found (freeCredits : Int) (now : Nat) (nuid neid : String)
    (st : BState) (sub email : String) (u : BillingUser)
    (hfound : findUserBySub st sub = some u) :
    ensure_user_once freeCredits now nuid neid st sub email =
      ensure_user_body freeCredits now neid st u email := by
  unfold ensure_user_once
  rw [hfound]

theorem ensure_once_of_fresh (freeCredits : Int) (now : Nat) (nuid neid : String)
    (st : BState) (sub email : String)
    (hfresh : findUserBySub st sub = none) :
    ensure_user_once freeCredits now nuid neid st sub email =
      ensure_user_body freeCredits now neid
        { st with users := st.users ++
            [{ id := nuid, google_sub := sub, email := email,
               free_credits_granted_at := none }] }
        { id := nuid, google_sub := sub, email := email,
          free_credits_granted_at := none } email := by
  unfold ensure_user_once
  rw [hfresh]

theorem find?_append_none {α : Type} (p : α → Bool) (l1 l2 : List α)
    (h : l1.find? p = none) : (l1 ++ l2).find? p = l2.find? p := by
  induction l1 with
  | nil => simp
  | cons a t ih =>
    have hpa : p a = false := by
      cases hb : p a
      · rfl
      · rw [List.find?_cons_of_pos _ hb] at h
        exact Option.noConfusion h
    rw [List.find?_cons_of_neg _ (by simp [hpa])] at h
    rw [List.cons_append, List.find?_cons_of_neg _ (by simp [hpa])]
    exact ih h

theorem updateUserBySub_append_of_none (sub : String) (g : BillingUser → BillingUser)
    (l1 l2 : List BillingUser) (h : ∀ u ∈ l1, (u.google_sub == sub) = false) :
    updateUserBySub sub g (l1 ++ l2) = l1 ++ updateUserBySub sub g l2 := by
  induction l1 with
  | nil => simp [updateUserBySub]
  | cons a t ih =>
    have := h a (by simp)
    simp only [List.cons_append, updateUserBySub, this, Bool.false_eq_true, if_false,
      List.append_eq]
    rw [ih fun u hu => h u (by simp [hu])]

theorem no_match_of_find?_none {st : BState} {sub : String}
    (h : findUserBySub st sub = none) :
    ∀ u ∈ st.users, (u.google_sub == sub) = false := by
  intro u hu
  have := List.find?_eq_none.1 h u hu
  cases hb : (u.google_sub == sub)
  · rfl
  · exact absurd hb this

/-- One `_ensure_user_once` call on a state with no row for the subject:
the full resulting state and return value. -/
theorem ensure_once_fresh_spec (freeCredits : Int) (now : Nat) (nuid neid : String)
    (st : BState) (sub email : String)
    (hfresh : findUserBySub st sub = none) :
    ensure_user_once freeCredits now nuid neid st sub email =
      ({ st with
          users := st.users ++
            [{ id := nuid, google_sub := sub, email := email,
               free_credits_granted_at := some now }],
          accounts := setA nuid ((lookupA nuid st.accounts).getD 0 + freeCredits) st.accounts,
          ledger := st.ledger ++ [grantEntry nuid neid freeCredits
            ((lookupA nuid st.accounts).getD 0 + freeCredits) now] },
       { id := nuid, email := email }) := by
  rw [ensure_once_of_fresh freeCredits now nuid neid st sub email hfresh]
  rw [ensure_body_grant _ _ _ _ _ _ rfl]
  rw [updateUserBySub_append_of_none _ _ _ _ (no_match_of_find?_none hfresh)]
  simp [updateUserBySub]

/-- One `_ensure_user_once` call for a subject whose user already holds the
free grant: email refresh only, no ledger change. -/
theorem ensure_once_granted_spec (freeCredits : Int) (now : Nat) (nuid neid : String)
    (st : BState) (sub email : String) (u : BillingUser)
    (hfound : findUserBySub st sub = some u)
    (hgr : u.free_credits_granted_at ≠ none) :
    ensure_user_once freeCredits now nuid neid st sub email =
      ({ st with
          users := updateUserBySub u.google_sub
            (fun _ => { u with email := email }) st.users,
          accounts := setA u.id ((lookupA u.id st.accounts).getD 0) st.accounts },
       { id := u.id, email := email }) := by
  rw [ensure_once_of_found _ _ _ _ _ _ _ u hfound]
  rw [ensure_body_no_grant _ _ _ _ _ _ hgr]

theorem google_sub_of_found {st : BState} {sub : String} {u : BillingUser}
    (hfound : findUserBySub st sub = some u) : u.google_sub = sub := by
  have := List.find?_some hfound
  simpa using this

theorem findUserBySub_update_const (sub : String) (row : BillingUser)
    (l : List BillingUser) (hrow : (row.google_sub == sub) = true) :
    (updateUserBySub sub (fun _ => row) l).find? (fun u => u.google_sub == sub) =
      match l.find? (fun u => u.google_sub == sub) with
      | some _ => some row
      | none => none := by
  induction l with
  | nil => simp [updateUserBySub]
  | cons a t ih =>
    by_cases h : (a.google_sub == sub) = true
    · simp [updateUserBySub, h, List.find?, hrow]
    · have hfa : (a.google_sub == sub) = false := by simpa using h
      simp only [updateUserBySub, hfa, Bool.false_eq_true, if_false, List.find?]
      exact ih

/-- An email-refresh-only transaction (account rewritten with its current
balance, users relation arbitrary) changes no balance. -/
theorem refresh_preserves (st : BState) (us : List BillingUser) (x : String) :
    ∀ q, balance_for_user
      ({ st with
          users := us,
          accounts := setA x ((lookupA x st.accounts).getD 0) st.accounts } : BState) q
        = balance_for_user st q := by
  intro q
  rw [balance_eq_lookup, balance_eq_lookup]
  exact lookupA_setA_getD x q st.accounts

/-- One `_ensure_user_once` transaction preserves the store invariant and
performs at most one consistent ledger append. -/
theorem ensure_once_step (freeCredits : Int) (now : Nat) (nuid neid : String)
    (st : BState) (sub email : String) (hf : 0 ≤ freeCredits) (hInv : Inv st) :
    Inv (ensure_user_once freeCredits now nuid neid st sub email).1 ∧
    LedgerStep st (ensure_user_once freeCredits now nuid neid st sub email).1 := by
  cases hfind : findUserBySub st sub with
  | none =>
    rw [ensure_once_fresh_spec _ _ _ _ _ _ _ hfind]
    refine step_mut rfl rfl rfl ?_ rfl hInv ?_
    · show freeCredits = (lookupA nuid st.accounts).getD 0 + freeCredits - balance_for_user st nuid
      rw [balance_eq_lookup]
      ring
    · have := (hInv nuid).2
      rw [balance_eq_lookup] at this
      exact add_nonneg this hf
  | some u =>
    rw [ensure_once_of_found _ _ _ _ _ _ _ u hfind]
    cases hgr : u.free_credits_granted_at with
    | none =>
      rw [ensure_body_grant _ _ _ _ _ _ hgr]
      refine step_mut rfl rfl rfl ?_ rfl hInv ?_
      · show freeCredits = (lookupA u.id st.accounts).getD 0 + freeCredits - balance_for_user st u.id
        rw [balance_eq_lookup]
        ring
      · have := (hInv u.id).2
        rw [balance_eq_lookup] at this
        exact add_nonneg this hf
    | some ts =>
      rw [ensure_body_no_grant _ _ _ _ _ _ (by simp [hgr])]
      exact ⟨Inv_of_eq (refresh_preserves st _ _) rfl hInv,
        LedgerStep_of_eq (refresh_preserves st _ _) rfl (LedgerStep_refl st)⟩

/-- `ensure_user` (with its single modelled retry) preserves the invariant
and performs at most one consistent ledger append. -/
theorem ensure_user_step (freeCredits : Int) (now : Nat) (nuid neid : String)
    (st : BState) (sub email : String) (race : Option EnsureRace)
    (hf : 0 ≤ freeCredits) (hInv : Inv st) :
    Inv (ensure_user freeCredits now nuid neid st sub email race).1 ∧
    LedgerStep st (ensure_user freeCredits now nuid neid st sub email race).1 := by
  cases race with
  | none => exact ensure_once_step freeCredits now nuid neid st sub email hf hInv
  | some r =>
    show Inv (ensure_user freeCredits now nuid neid st sub email (some r)).1 ∧ _
    rw [ensure_user]
    by_cases hfresh : findUserBySub st sub = none
    · rw [if_pos hfresh]
      have h1 := ensure_once_step freeCredits r.racer_now r.racer_user_id r.racer_entry_id
        st sub r.racer_email hf hInv
      set st1 := (ensure_user_once freeCredits r.racer_now r.racer_user_id r.racer_entry_id
        st sub r.racer_email).1 with hst1
      have hrow : findUserBySub st1 sub =
          some { id := r.racer_user_id, google_sub := sub, email := r.racer_email,
                 free_credits_granted_at := some r.racer_now } := by
        rw [hst1, ensure_once_fresh_spec _ _ _ _ _ _ _ hfresh]
        show (st.users ++ [_]).find? _ = _
        rw [find?_append_none _ _ _ hfresh]
        rw [List.find?_cons_of_pos _ (by simp)]
      rw [ensure_once_granted_spec _ _ _ _ _ _ _ _ hrow (by simp)]
      exact ⟨Inv_of_eq (refresh_preserves st1 _ _) rfl h1.1,
        LedgerStep_of_eq (refresh_preserves st1 _ _) rfl h1.2⟩
    · rw [if_neg hfresh]
      exact ensure_once_step freeCredits now nuid neid st sub email hf hInv

end Billing

namespace Billing

theorem consume_dup (now : Nat) (neid : String) (st : BState) (u sid tool : String)
    (s : AssessmentBillingSession) (hs : findSession st sid = some s) :
    consume_credit_for_new_session now neid st u sid tool =
      Except.ok (st, balance_for_user st u) := by
  unfold consume_credit_for_new_session
  rw [hs]

theorem consume_no_account (now : Nat) (neid : String) (st : BState) (u sid tool : String)
    (hs : findSession st sid = none) (ha : lookupA u st.accounts = none) :
    consume_credit_for_new_session now neid st u sid tool =
      Except.error (BillingError.insufficientCredits
        "No credits available for a new assessment session") := by
  unfold consume_credit_for_new_session
  rw [hs, ha]

theorem consume_low (now : Nat) (neid : String) (st : BState) (u sid tool : String)
    (bal : Int) (hs : findSession st sid = none) (ha : lookupA u st.accounts = some bal)
    (hb : bal < 1) :
    consume_credit_for_new_session now neid st u sid tool =
      Except.error (BillingError.insufficientCredits
        "No credits available for a new assessment session") := by
  unfold consume_credit_for_new_session
  rw [hs, ha]
  dsimp only
  rw [if_pos hb]

theorem consume_spec (now : Nat) (neid : String) (st : BState) (u sid tool : String)
    (bal : Int) (hs : findSession st sid = none) (ha : lookupA u st.accounts = some bal)
    (hb : 1 ≤ bal) :
    consume_credit_for_new_session now neid st u sid tool =
      Except.ok
        ({ st with
            accounts := setA u (bal - 1) st.accounts,
            ledger := st.ledger ++ [{
              id := neid,
              user_id := u,
              delta := -1,
              reason := LedgerReason.SESSION_DEBIT,
              session_id := some sid,
              balance_after := bal - 1,
              metadata_json := [("ai_tool", tool)],
              idempotency_key := some ("session-debit:" ++ u ++ ":" ++ sid),
              created_at := now }],
            sessions := st.sessions ++ [{
              session_id := sid,
              user_id := u,
              canonical_tool_name := tool,
              canonical_tool_fingerprint := ToolLock.canonicalize_tool_name tool,
              credit_ledger_debit_id := neid,
              status := BillingSessionStatus.ACTIVE }] },
         bal - 1) := by
  unfold consume_credit_for_new_session
  rw [hs, ha]
  dsimp only
  rw [if_neg (by omega)]

theorem purchase_dup (now : Nat) (neid : String) (st : BState) (u : String) (credits : Int)
    (eid cid : String) (md : List (String × String))
    (hdup : st.ledger.any (fun e => e.idempotency_key == some ("stripe:" ++ eid)) = true) :
    apply_purchase_credits now neid st u credits eid cid md =
      Except.ok (st, balance_for_user st u) := by
  unfold apply_purchase_credits
  rw [if_pos hdup]

theorem purchase_no_account (now : Nat) (neid : String) (st : BState) (u : String)
    (credits : Int) (eid cid : String) (md : List (String × String))
    (hdup : st.ledger.any (fun e => e.idempotency_key == some ("stripe:" ++ eid)) = false)
    (ha : lookupA u st.accounts = none) :
    apply_purchase_credits now neid st u credits eid cid md =
      Except.error (BillingError.valueError ("Credit account not found for user_id=" ++ u)) := by
  unfold apply_purchase_credits
  rw [if_neg (by simp [hdup]), ha]

theorem purchase_spec (now : Nat) (neid : String) (st : BState) (u : String) (credits : Int)
    (eid cid : String) (md : List (String × String)) (bal : Int)
    (hdup : st.ledger.any (fun e => e.idempotency_key == some ("stripe:" ++ eid)) = false)
    (ha : lookupA u st.accounts = some bal) :
    apply_purchase_credits now neid st u credits eid cid md =
      Except.ok
        ({ st with
            accounts := setA u (bal + credits) st.accounts,
            ledger := st.ledger ++ [{
              id := neid,
              user_id := u,
              delta := credits,
              reason := LedgerReason.PURCHASE,
              stripe_event_id := some eid,
              stripe_checkout_session_id := some cid,
              balance_after := bal + credits,
              idempotency_key := some ("stripe:" ++ eid),
              metadata_json := md,
              created_at := now }] },
         bal + credits) := by
  unfold apply_purchase_credits
  rw [if_neg (by simp [hdup]), ha]

end Billing

namespace Billing

theorem consume_step (freeCredits : Int) (now : Nat) (neid : String) (st : BState)
    (u sid tool : String) (hInv : Inv st) :
    Inv (applyOp freeCredits st (BillingOp.consume u sid tool now neid)) ∧
    LedgerStep st (applyOp freeCredits st (BillingOp.consume u sid tool now neid)) := by
  cases hs : findSession st sid with
  | some s =>
    simp only [applyOp, consume_dup now neid st u sid tool s hs]
    exact ⟨hInv, LedgerStep_refl st⟩
  | none =>
    cases ha : lookupA u st.accounts with
    | none =>
      simp only [applyOp, consume_no_account now neid st u sid tool hs ha]
      exact ⟨hInv, LedgerStep_refl st⟩
    | some bal =>
      by_cases hb : bal < 1
      · simp only [applyOp, consume_low now neid st u sid tool bal hs ha hb]
        exact ⟨hInv, LedgerStep_refl st⟩
      · simp only [applyOp, consume_spec now neid st u sid tool bal hs ha (by omega)]
        refine step_mut rfl rfl rfl ?_ rfl hInv ?_
        · show (-1 : Int) = bal - 1 - balance_for_user st u
          rw [balance_eq_lookup, ha]
          show (-1 : Int) = bal - 1 - bal
          ring
        · omega

theorem purchase_step (freeCredits : Int) (now : Nat) (neid : String) (st : BState)
    (u : String) (credits : Int) (eid cid : String) (md : List (String × String))
    (hc : 0 ≤ credits) (hInv : Inv st) :
    Inv (applyOp freeCredits st (BillingOp.purchase u credits eid cid md now neid)) ∧
    LedgerStep st (applyOp freeCredits st (BillingOp.purchase u credits eid cid md now neid)) := by
  by_cases hdup : st.ledger.any
      (fun e => e.idempotency_key == some ("stripe:" ++ eid)) = true
  · simp only [applyOp, purchase_dup now neid st u credits eid cid md hdup]
    exact ⟨hInv, LedgerStep_refl st⟩
  · have hdup2 : st.ledger.any
        (fun e => e.idempotency_key == some ("stripe:" ++ eid)) = false := by
      simpa using hdup
    cases ha : lookupA u st.accounts with
    | none =>
      simp only [applyOp, purchase_no_account now neid st u credits eid cid md hdup2 ha]
      exact ⟨hInv, LedgerStep_refl st⟩
    | some bal =>
      simp only [applyOp, purchase_spec now neid st u credits eid cid md bal hdup2 ha]
      refine step_mut rfl rfl rfl ?_ rfl hInv ?_
      · show credits = bal + credits - balance_for_user st u
        rw [balance_eq_lookup, ha]
        show credits = bal + credits - bal
        ring
      · have := (hInv u).2
        rw [balance_eq_lookup, ha] at this
        exact add_nonneg this hc

theorem applyOp_step (freeCredits : Int) (op : BillingOp) (st : BState)
    (hf : 0 ≤ freeCredits) (hwf : OpWf op) (hInv : Inv st) :
    Inv (applyOp freeCredits st op) ∧ LedgerStep st (applyOp freeCredits st op) := by
  cases op with
  | ensureUser sub email now nuid neid race =>
    simp only [applyOp]
    exact ensure_user_step freeCredits now nuid neid st sub email race hf hInv
  | consume u sid tool now neid =>
    exact consume_step freeCredits now neid st u sid tool hInv
  | purchase u credits eid cid md now neid =>
    exact purchase_step freeCredits now neid st u credits eid cid md hwf hInv

theorem applyOps_step (freeCredits : Int) (hf : 0 ≤ freeCredits) :
    ∀ (ops : List BillingOp) (st : BState), (∀ op ∈ ops, OpWf op) → Inv st →
      Inv (applyOps freeCredits st ops) ∧ StepsOk freeCredits st ops := by
  intro ops
  induction ops with
  | nil =>
    intro st _ hInv
    exact ⟨hInv, trivial⟩
  | cons op ops ih =>
    intro st hwf hInv
    have hstep := applyOp_step freeCredits op st hf (hwf op (by simp)) hInv
    have hrest := ih (applyOp freeCredits st op) (fun o ho => hwf o (by simp [ho])) hstep.1
    exact ⟨hrest.1, hstep.2, hrest.2⟩

theorem Inv_init : Inv initState := by
  intro u
  exact ⟨rfl, le_refl 0⟩

end Billing

namespace Billing

theorem resolve_some {st : BState} {ev : StripeEvent} {uid : String}
    (huid : ev.obj.meta_user_id = some uid) (hne : uid ≠ "") :
    resolve_event_user st ev = some uid := by
  unfold resolve_event_user
  rw [huid]
  simp [hne]

theorem process_already (now : Nat) (neid : String) (st : BState) (ev : StripeEvent)
    (ph : String)
    (hrec : st.webhook_events.any (fun w => w.stripe_event_id == ev.id) = true) :
    process_checkout_completed now neid st ev ph =
      Except.ok (st, false, "already_processed") := by
  unfold process_checkout_completed
  rw [if_pos hrec]

theorem process_unresolved (now : Nat) (neid : String) (st : BState) (ev : StripeEvent)
    (ph : String)
    (hrec : st.webhook_events.any (fun w => w.stripe_event_id == ev.id) = false)
    (hres : resolve_event_user st ev = none) :
    process_checkout_completed now neid st ev ph =
      Except.error (BillingError.valueError
        "Could not resolve user_id from Stripe webhook metadata") := by
  unfold process_checkout_completed
  rw [if_neg (by simp [hrec]), hres]

theorem process_typeerror (now : Nat) (neid : String) (st : BState) (ev : StripeEvent)
    (ph : String) (uid : String)
    (hrec : st.webhook_events.any (fun w => w.stripe_event_id == ev.id) = false)
    (hres : resolve_event_user st ev = some uid) :
    process_checkout_completed now neid st ev ph =
      Except.error (BillingError.typeError
        "BillingService.apply_purchase_credits() got an unexpected keyword argument \x27request_units\x27") := by
  unfold process_checkout_completed
  rw [if_neg (by simp [hrec]), hres]

end Billing

namespace Billing

theorem daily_limit_reached (dailyLimit : Nat) (now : Nat) (neid : String) (st : BState)
    (u rid sid tool : String)
    (hkey : st.ledger.any (fun e => e.idempotency_key ==
      some ("request-debit:" ++ u ++ ":" ++ rid)) = false)
    (hcnt : dailyLimit ≤ dailyCount st u (now / 86400 * 86400) (now / 86400 * 86400 + 86400)) :
    consume_daily_credit_for_request dailyLimit now neid st u rid sid tool =
      Except.error (BillingError.dailyLimitReached (now / 86400 * 86400 + 86400)
        "Daily request limit reached") := by
  unfold consume_daily_credit_for_request
  rw [if_neg (by simp [hkey]), if_pos hcnt]

theorem daily_spec (dailyLimit : Nat) (now : Nat) (neid : String) (st : BState)
    (u rid sid tool : String)
    (hkey : st.ledger.any (fun e => e.idempotency_key ==
      some ("request-debit:" ++ u ++ ":" ++ rid)) = false)
    (hcnt : dailyCount st u (now / 86400 * 86400) (now / 86400 * 86400 + 86400) < dailyLimit) :
    consume_daily_credit_for_request dailyLimit now neid st u rid sid tool =
      Except.ok
        ({ st with
            ledger := st.ledger ++ [{
              id := neid,
              user_id := u,
              delta := -1,
              reason := LedgerReason.REQUEST_DEBIT,
              session_id := some sid,
              balance_after := balance_for_user st u,
              metadata_json := [("ai_tool", tool), ("request_id", rid)],
              idempotency_key := some ("request-debit:" ++ u ++ ":" ++ rid),
              created_at := now }] },
         (dailyLimit : Int) -
           ((dailyCount st u (now / 86400 * 86400) (now / 86400 * 86400 + 86400) : Int) + 1)) := by
  unfold consume_daily_credit_for_request
  rw [if_neg (by simp [hkey]), if_neg (by omega)]

theorem daily_excludes_out_of_window (st : BState) (u : String) (lo hi : Nat)
    (e : CreditLedgerEntry) (h : e.created_at < lo ∨ hi ≤ e.created_at) :
    dailyCount { st with ledger := st.ledger ++ [e] } u lo hi = dailyCount st u lo hi := by
  have hfe : (e.user_id == u && e.reason == LedgerReason.REQUEST_DEBIT
      && decide (lo ≤ e.created_at) && decide (e.created_at < hi)) = false := by
    rcases h with h | h
    · have : decide (lo ≤ e.created_at) = false := by simp; omega
      simp [this]
    · have : decide (e.created_at < hi) = false := by simp; omega
      simp [this]
  unfold dailyCount
  rw [List.filter_append]
  simp [List.filter, hfe]

theorem gate_consumes (dailyLimit : Nat) (now : Nat) (neid : String) (st : BState)
    (us rid sid tool : String) (hus : us ≠ "") :
    agent_billing_gate true dailyLimit now neid st (some us) rid sid tool =
      (consume_daily_credit_for_request dailyLimit now neid st us rid sid tool).map
        (fun p => p.1) := by
  unfold agent_billing_gate
  rw [if_pos rfl, if_neg (by simpa using hus)]
  rfl

theorem gate_missing_sub (dailyLimit : Nat) (now : Nat) (neid : String) (st : BState)
    (rid sid tool : String) :
    agent_billing_gate true dailyLimit now neid st none rid sid tool =
      Except.error (BillingError.insufficientCredits "Missing authenticated billing user") := by
  unfold agent_billing_gate
  rw [if_pos rfl]
  rfl

end Billing

/-- C1: for every user, any sequence of well-formed balance-mutating
operations (`ensure_user` free grant, `consume_credit_for_new_session`
debit, `apply_purchase_credits` grant) run from the fresh store keeps
`CreditAccount.balance` equal to the sum of `CreditLedgerEntry.delta` over
that user's ledger rows and never negative, and each operation either
leaves a user's rows and balance unchanged or appends exactly one ledger
row whose delta is the balance change and whose `balance_after` is the
post-mutation balance. -/
theorem c1_balance_ledger_invariant (freeCredits : Int) (ops : List Billing.BillingOp)
    (hf : 0 ≤ freeCredits) (hwf : ∀ op ∈ ops, Billing.OpWf op) :
    Billing.Inv (Billing.applyOps freeCredits Billing.initState ops) ∧
    Billing.StepsOk freeCredits Billing.initState ops :=
  Billing.applyOps_step freeCredits hf ops Billing.initState hwf Billing.Inv_init

theorem c1_balance_ledger_invariant_witness :
    Billing.Inv (Billing.applyOps 5 Billing.initState
      [Billing.BillingOp.ensureUser "sub-1" "a@x" 1 "u1" "l1" none,
       Billing.BillingOp.consume "u1" "s1" "Notion AI" 2 "l2",
       Billing.BillingOp.purchase "u1" 10 "evt_1" "cs_1" [] 3 "l3"]) ∧
    Billing.StepsOk 5 Billing.initState
      [Billing.BillingOp.ensureUser "sub-1" "a@x" 1 "u1" "l1" none,
       Billing.BillingOp.consume "u1" "s1" "Notion AI" 2 "l2",
       Billing.BillingOp.purchase "u1" 10 "evt_1" "cs_1" [] 3 "l3"] :=
  c1_balance_ledger_invariant 5 _ (by norm_num) (by
    intro op hop
    fin_cases hop <;> simp [Billing.OpWf])

/-- C2: when the user's credit account is missing or holds less than 1
unit, consuming for a new (not yet charged) session raises the distinct
`InsufficientCreditsError` (never a generic failure), the transaction
leaves the store untouched (no ledger row, no billing session, balance
unchanged), and the `/run` handler maps the condition to HTTP 402 rather
than a 500 server error. -/
theorem c2_insufficient_credits_atomic (freeCredits : Int) (now : Nat) (neid : String)
    (st : Billing.BState) (u sid tool : String)
    (hs : Billing.findSession st sid = none)
    (hlow : (Billing.lookupA u st.accounts).getD 0 < 1) :
    Billing.consume_credit_for_new_session now neid st u sid tool =
      Except.error (Billing.BillingError.insufficientCredits
        "No credits available for a new assessment session") ∧
    Billing.applyOp freeCredits st (Billing.BillingOp.consume u sid tool now neid) = st ∧
    Billing.run_http_status
      ((Billing.consume_credit_for_new_session now neid st u sid tool).map
        (fun p => p.1)) = 402 := by
  have herr : Billing.consume_credit_for_new_session now neid st u sid tool =
      Except.error (Billing.BillingError.insufficientCredits
        "No credits available for a new assessment session") := by
    cases ha : Billing.lookupA u st.accounts with
    | none => exact Billing.consume_no_account now neid st u sid tool hs ha
    | some bal =>
      refine Billing.consume_low now neid st u sid tool bal hs ha ?_
      rw [ha] at hlow
      simpa using hlow
  refine ⟨herr, ?_, ?_⟩
  · simp only [Billing.applyOp, herr]
  · rw [herr]
    rfl

theorem c2_insufficient_credits_atomic_witness :
    Billing.run_http_status
      ((Billing.consume_credit_for_new_session 1 "l1" Billing.initState "u1" "s1"
        "Notion AI").map (fun p => p.1)) = 402 :=
  (c2_insufficient_credits_atomic 5 1 "l1" Billing.initState "u1" "s1" "Notion AI"
    rfl (by decide)).2.2

/-- C3: consume is idempotent per request identifier — here the session id
that identifies the charge request: for a user with at least one unit,
calling `consume_credit_for_new_session` twice with the same
`(user_id, session_id)` returns the same remaining balance both times,
debits exactly once, writes exactly one SESSION_DEBIT ledger row carrying
the deterministic key `"session-debit:" + user_id + ":" + session_id`, and
the duplicate call leaves the state unchanged and raises no error. -/
theorem c3_consume_idempotent (now1 now2 : Nat) (neid1 neid2 : String)
    (st : Billing.BState) (u sid tool : String) (bal : Int)
    (hs : Billing.findSession st sid = none)
    (ha : Billing.lookupA u st.accounts = some bal)
    (hb : 1 ≤ bal) :
    ∃ st1 : Billing.BState,
      Billing.consume_credit_for_new_session now1 neid1 st u sid tool =
        Except.ok (st1, bal - 1) ∧
      Billing.consume_credit_for_new_session now2 neid2 st1 u sid tool =
        Except.ok (st1, bal - 1) ∧
      st1.ledger = st.ledger ++ [{
        id := neid1,
        user_id := u,
        delta := -1,
        reason := Billing.LedgerReason.SESSION_DEBIT,
        session_id := some sid,
        balance_after := bal - 1,
        metadata_json := [("ai_tool", tool)],
        idempotency_key := some ("session-debit:" ++ u ++ ":" ++ sid),
        created_at := now1 }] ∧
      Billing.balance_for_user st1 u = bal - 1 := by
  refine ⟨_, Billing.consume_spec now1 neid1 st u sid tool bal hs ha hb, ?_, rfl, ?_⟩
  · have hsess : Billing.findSession
        ({ st with
            accounts := Billing.setA u (bal - 1) st.accounts,
            ledger := st.ledger ++ [{
              id := neid1,
              user_id := u,
              delta := -1,
              reason := Billing.LedgerReason.SESSION_DEBIT,
              session_id := some sid,
              balance_after := bal - 1,
              metadata_json := [("ai_tool", tool)],
              idempotency_key := some ("session-debit:" ++ u ++ ":" ++ sid),
              created_at := now1 }],
            sessions := st.sessions ++ [{
              session_id := sid,
              user_id := u,
              canonical_tool_name := tool,
              canonical_tool_fingerprint := ToolLock.canonicalize_tool_name tool,
              credit_ledger_debit_id := neid1,
              status := Billing.BillingSessionStatus.ACTIVE }] } : Billing.BState) sid =
      some ({
        session_id := sid,
        user_id := u,
        canonical_tool_name := tool,
        canonical_tool_fingerprint := ToolLock.canonicalize_tool_name tool,
        credit_ledger_debit_id := neid1,
        status := Billing.BillingSessionStatus.ACTIVE } : Billing.AssessmentBillingSession) := by
      show (st.sessions ++ [_]).find? _ = _
      rw [Billing.find?_append_none _ _ _ hs]
      rw [List.find?_cons_of_pos _ (by simp)]
    rw [Billing.consume_dup now2 neid2 _ u sid tool _ hsess]
    have hbal : Billing.balance_for_user
        ({ st with
            accounts := Billing.setA u (bal - 1) st.accounts,
            ledger := st.ledger ++ [{
              id := neid1,
              user_id := u,
              delta := -1,
              reason := Billing.LedgerReason.SESSION_DEBIT,
              session_id := some sid,
              balance_after := bal - 1,
              metadata_json := [("ai_tool", tool)],
              idempotency_key := some ("session-debit:" ++ u ++ ":" ++ sid),
              created_at := now1 }],
            sessions := st.sessions ++ [{
              session_id := sid,
              user_id := u,
              canonical_tool_name := tool,
              canonical_tool_fingerprint := ToolLock.canonicalize_tool_name tool,
              credit_ledger_debit_id := neid1,
              status := Billing.BillingSessionStatus.ACTIVE }] } : Billing.BState) u = bal - 1 := by
      rw [Billing.balance_eq_lookup]
      show (Billing.lookupA u (Billing.setA u (bal - 1) st.accounts)).getD 0 = bal - 1
      rw [Billing.lookupA_setA_self]
      rfl
    rw [hbal]
  · rw [Billing.balance_eq_lookup]
    show (Billing.lookupA u (Billing.setA u (bal - 1) st.accounts)).getD 0 = bal - 1
    rw [Billing.lookupA_setA_self]
    rfl

theorem c3_consume_idempotent_witness :
    ∃ st1 : Billing.BState,
      Billing.consume_credit_for_new_session 2 "l2" (Billing.applyOp 5 Billing.initState
        (Billing.BillingOp.ensureUser "sub-1" "a@x" 1 "u1" "l1" none)) "u1" "s1" "Notion AI" =
        Except.ok (st1, 5 - 1) ∧
      Billing.consume_credit_for_new_session 3 "l3" st1 "u1" "s1" "Notion AI" =
        Except.ok (st1, 5 - 1) ∧
      st1.ledger = (Billing.applyOp 5 Billing.initState
        (Billing.BillingOp.ensureUser "sub-1" "a@x" 1 "u1" "l1" none)).ledger ++ [{
        id := "l2",
        user_id := "u1",
        delta := -1,
        reason := Billing.LedgerReason.SESSION_DEBIT,
        session_id := some "s1",
        balance_after := 5 - 1,
        metadata_json := [("ai_tool", "Notion AI")],
        idempotency_key := some ("session-debit:" ++ "u1" ++ ":" ++ "s1"),
        created_at := 2 }] ∧
      Billing.balance_for_user st1 "u1" = 5 - 1 :=
  c3_consume_idempotent 2 3 "l2" "l3" _ "u1" "s1" "Notion AI" 5 rfl (by decide) (by decide)

/-- C4: `apply_purchase_credits` is idempotent by external event id: for a
user with an existing account and a positive unit count, applying the same
event twice grants once, writes exactly one PURCHASE row carrying the key
`"stripe:" + event_id`, and the duplicate call returns the current balance
with the state unchanged. -/
theorem c4_purchase_idempotent (now1 now2 : Nat) (neid1 neid2 : String)
    (st : Billing.BState) (u eid cid : String) (credits bal : Int)
    (md : List (String × String))
    (hdup : st.ledger.any (fun e => e.idempotency_key ==
      some ("stripe:" ++ eid)) = false)
    (ha : Billing.lookupA u st.accounts = some bal)
    (hpos : 0 < credits) :
    ∃ st1 : Billing.BState,
      Billing.apply_purchase_credits now1 neid1 st u credits eid cid md =
        Except.ok (st1, bal + credits) ∧
      Billing.apply_purchase_credits now2 neid2 st1 u credits eid cid md =
        Except.ok (st1, bal + credits) ∧
      st1.ledger = st.ledger ++ [{
        id := neid1,
        user_id := u,
        delta := credits,
        reason := Billing.LedgerReason.PURCHASE,
        stripe_event_id := some eid,
        stripe_checkout_session_id := some cid,
        balance_after := bal + credits,
        idempotency_key := some ("stripe:" ++ eid),
        metadata_json := md,
        created_at := now1 }] ∧
      Billing.balance_for_user st1 u = bal + credits := by
  have hbal : Billing.balance_for_user
      ({ st with
          accounts := Billing.setA u (bal + credits) st.accounts,
          ledger := st.ledger ++ [{
            id := neid1,
            user_id := u,
            delta := credits,
            reason := Billing.LedgerReason.PURCHASE,
            stripe_event_id := some eid,
            stripe_checkout_session_id := some cid,
            balance_after := bal + credits,
            idempotency_key := some ("stripe:" ++ eid),
            metadata_json := md,
            created_at := now1 }] } : Billing.BState) u = bal + credits := by
    rw [Billing.balance_eq_lookup]
    show (Billing.lookupA u (Billing.setA u (bal + credits) st.accounts)).getD 0 = bal + credits
    rw [Billing.lookupA_setA_self]
    rfl
  refine ⟨_, Billing.purchase_spec now1 neid1 st u credits eid cid md bal hdup ha, ?_, rfl, hbal⟩
  have hdup1 : (({ st with
      accounts := Billing.setA u (bal + credits) st.accounts,
      ledger := st.ledger ++ [{
        id := neid1,
        user_id := u,
        delta := credits,
        reason := Billing.LedgerReason.PURCHASE,
        stripe_event_id := some eid,
        stripe_checkout_session_id := some cid,
        balance_after := bal + credits,
        idempotency_key := some ("stripe:" ++ eid),
        metadata_json := md,
        created_at := now1 }] } : Billing.BState)).ledger.any
      (fun e => e.idempotency_key == some ("stripe:" ++ eid)) = true := by
    show (st.ledger ++ [_]).any _ = true
    rw [List.any_append]
    simp
  rw [Billing.purchase_dup now2 neid2 _ u credits eid cid md hdup1, hbal]

theorem c4_purchase_idempotent_witness :
    ∃ st1 : Billing.BState,
      Billing.apply_purchase_credits 2 "l2" (Billing.applyOp 5 Billing.initState
        (Billing.BillingOp.ensureUser "sub-1" "a@x" 1 "u1" "l1" none)) "u1" 10 "evt_1" "cs_1" [] =
        Except.ok (st1, 5 + 10) ∧
      Billing.apply_purchase_credits 3 "l3" st1 "u1" 10 "evt_1" "cs_1" [] =
        Except.ok (st1, 5 + 10) ∧
      st1.ledger = (Billing.applyOp 5 Billing.initState
        (Billing.BillingOp.ensureUser "sub-1" "a@x" 1 "u1" "l1" none)).ledger ++ [{
        id := "l2",
        user_id := "u1",
        delta := 10,
        reason := Billing.LedgerReason.PURCHASE,
        stripe_event_id := some "evt_1",
        stripe_checkout_session_id := some "cs_1",
        balance_after := 5 + 10,
        idempotency_key := some ("stripe:" ++ "evt_1"),
        metadata_json := [],
        created_at := 2 }] ∧
      Billing.balance_for_user st1 "u1" = 5 + 10 :=
  c4_purchase_idempotent 2 3 "l2" "l3" _ "u1" "evt_1" "cs_1" 10 5 []
    (by decide) (by decide) (by decide)

namespace Billing

/-- Once the free-grant timestamp is non-null, any later `ensure_user` call
for the subject (with or without a modelled race) refreshes the email only:
no ledger change, no balance change, and the timestamp survives. -/
theorem ensure_user_granted_noop (fc : Int) (n : Nat) (ni ne : String) (st : BState)
    (sub em : String) (race : Option EnsureRace) (u : BillingUser)
    (hfound : findUserBySub st sub = some u)
    (hgr : u.free_credits_granted_at ≠ none) :
    (ensure_user fc n ni ne st sub em race).1.ledger = st.ledger ∧
    findUserBySub (ensure_user fc n ni ne st sub em race).1 sub =
      some { u with email := em } ∧
    (∀ q, balance_for_user (ensure_user fc n ni ne st sub em race).1 q =
      balance_for_user st q) ∧
    (ensure_user fc n ni ne st sub em race).2 = { id := u.id, email := em } := by
  have hsub : u.google_sub = sub := google_sub_of_found hfound
  have honce : ensure_user_once fc n ni ne st sub em =
      ({ st with
          users := updateUserBySub u.google_sub
            (fun _ => { u with email := em }) st.users,
          accounts := setA u.id ((lookupA u.id st.accounts).getD 0) st.accounts },
       { id := u.id, email := em }) :=
    ensure_once_granted_spec fc n ni ne st sub em u hfound hgr
  have hfind : findUserBySub
      ({ st with
          users := updateUserBySub u.google_sub
            (fun _ => { u with email := em }) st.users,
          accounts := setA u.id ((lookupA u.id st.accounts).getD 0) st.accounts } : BState) sub =
      some { u with email := em } := by
    show (updateUserBySub u.google_sub (fun _ => { u with email := em }) st.users).find? _ = _
    rw [hsub]
    rw [findUserBySub_update_const sub _ st.users (by simp [hsub])]
    rw [show st.users.find? (fun v => v.google_sub == sub) = some u from hfound]
  have key : ensure_user fc n ni ne st sub em race = ensure_user_once fc n ni ne st sub em := by
    cases race with
    | none => rfl
    | some r =>
      show ensure_user fc n ni ne st sub em (some r) = _
      rw [ensure_user]
      rw [if_neg (by rw [hfound]; exact fun hx => Option.noConfusion hx)]
  rw [key, honce]
  exact ⟨rfl, hfind, refresh_preserves st _ _, rfl⟩

end Billing

/-- C5: `ensure_user` grants the signup bonus exactly once per user. On the
call that finds the free-grant timestamp null it adds the configured grant
to the balance, stamps the timestamp, and appends one FREE_GRANT row with
idempotency key `"free-grant:" + user_id`; any later call for the same
subject (the timestamp now non-null, so it stays non-null forever) refreshes
the email but grants nothing; and when a concurrent first creation raises
the unique-constraint violation, the operation is retried exactly once and
still yields a single grant. -/
theorem c5_free_grant_exactly_once (freeCredits : Int) (now1 now2 : Nat)
    (nuid neid nuid2 neid2 : String) (st : Billing.BState) (sub email email2 : String)
    (hfresh : Billing.findUserBySub st sub = none)
    (hacct : Billing.lookupA nuid st.accounts = none) :
    (∃ st1 : Billing.BState,
      Billing.ensure_user freeCredits now1 nuid neid st sub email none =
        (st1, { id := nuid, email := email }) ∧
      Billing.findUserBySub st1 sub =
        some { id := nuid, google_sub := sub, email := email,
               free_credits_granted_at := some now1 } ∧
      Billing.balance_for_user st1 nuid = freeCredits ∧
      st1.ledger = st.ledger ++
        [Billing.grantEntry nuid neid freeCredits freeCredits now1] ∧
      (Billing.ensure_user freeCredits now2 nuid2 neid2 st1 sub email2 none).1.ledger =
        st1.ledger ∧
      Billing.findUserBySub
        (Billing.ensure_user freeCredits now2 nuid2 neid2 st1 sub email2 none).1 sub =
        some { id := nuid, google_sub := sub, email := email2,
               free_credits_granted_at := some now1 } ∧
      Billing.balance_for_user
        (Billing.ensure_user freeCredits now2 nuid2 neid2 st1 sub email2 none).1 nuid =
        freeCredits ∧
      (Billing.ensure_user freeCredits now2 nuid2 neid2 st1 sub email2 none).2 =
        { id := nuid, email := email2 }) ∧
    (∀ (fc : Int) (n : Nat) (ni ne : String) (st3 : Billing.BState) (sub3 em3 : String)
      (race : Option Billing.EnsureRace) (u : Billing.BillingUser),
      Billing.findUserBySub st3 sub3 = some u → u.free_credits_granted_at ≠ none →
      (Billing.ensure_user fc n ni ne st3 sub3 em3 race).1.ledger = st3.ledger ∧
      Billing.findUserBySub (Billing.ensure_user fc n ni ne st3 sub3 em3 race).1 sub3 =
        some { u with email := em3 } ∧
      ∀ q, Billing.balance_for_user (Billing.ensure_user fc n ni ne st3 sub3 em3 race).1 q =
        Billing.balance_for_user st3 q) ∧
    (∀ r : Billing.EnsureRace, Billing.lookupA r.racer_user_id st.accounts = none →
      (Billing.ensure_user freeCredits now1 nuid neid st sub email (some r)).1.ledger =
        st.ledger ++ [Billing.grantEntry r.racer_user_id r.racer_entry_id freeCredits
          freeCredits r.racer_now] ∧
      Billing.balance_for_user
        (Billing.ensure_user freeCredits now1 nuid neid st sub email (some r)).1
        r.racer_user_id = freeCredits ∧
      (Billing.ensure_user freeCredits now1 nuid neid st sub email (some r)).2 =
        { id := r.racer_user_id, email := email }) := by
  have h0 : (Billing.lookupA nuid st.accounts).getD 0 + freeCredits = freeCredits := by
    rw [hacct]
    simp
  refine ⟨?_, ?_, ?_⟩
  · -- first call and immediate duplicate
    have hspec := Billing.ensure_once_fresh_spec freeCredits now1 nuid neid st sub email hfresh
    rw [h0] at hspec
    have hone : Billing.ensure_user freeCredits now1 nuid neid st sub email none =
        Billing.ensure_user_once freeCredits now1 nuid neid st sub email := rfl
    set row : Billing.BillingUser :=
      { id := nuid, google_sub := sub, email := email,
        free_credits_granted_at := some now1 } with hrowdef
    have hfind1 : Billing.findUserBySub
        ({ st with
            users := st.users ++ [row],
            accounts := Billing.setA nuid freeCredits st.accounts,
            ledger := st.ledger ++
              [Billing.grantEntry nuid neid freeCredits freeCredits now1] } : Billing.BState)
        sub = some row := by
      show (st.users ++ [row]).find? _ = _
      rw [Billing.find?_append_none _ _ _ hfresh]
      rw [List.find?_cons_of_pos _ (by simp [hrowdef])]
    have hbal1 : Billing.balance_for_user
        ({ st with
            users := st.users ++ [row],
            accounts := Billing.setA nuid freeCredits st.accounts,
            ledger := st.ledger ++
              [Billing.grantEntry nuid neid freeCredits freeCredits now1] } : Billing.BState)
        nuid = freeCredits := by
      rw [Billing.balance_eq_lookup]
      show (Billing.lookupA nuid (Billing.setA nuid freeCredits st.accounts)).getD 0 = freeCredits
      rw [Billing.lookupA_setA_self]
      rfl
    have hnoop := Billing.ensure_user_granted_noop freeCredits now2 nuid2 neid2 _ sub email2
      none row hfind1 (by simp [hrowdef])
    refine ⟨_, by rw [hone, hspec], hfind1, hbal1, rfl, hnoop.1, ?_, ?_, hnoop.2.2.2⟩
    · rw [hnoop.2.1]
    · rw [hnoop.2.2.1 nuid]
      exact hbal1
  · intro fc n ni ne st3 sub3 em3 race u hfound hgr
    have h := Billing.ensure_user_granted_noop fc n ni ne st3 sub3 em3 race u hfound hgr
    exact ⟨h.1, h.2.1, h.2.2.1⟩
  · intro r hr
    have h0r : (Billing.lookupA r.racer_user_id st.accounts).getD 0 + freeCredits
        = freeCredits := by
      rw [hr]
      simp
    have hspecr := Billing.ensure_once_fresh_spec freeCredits r.racer_now r.racer_user_id
      r.racer_entry_id st sub r.racer_email hfresh
    rw [h0r] at hspecr
    set rowr : Billing.BillingUser :=
      { id := r.racer_user_id, google_sub := sub, email := r.racer_email,
        free_credits_granted_at := some r.racer_now } with hrowrdef
    have hrace : Billing.ensure_user freeCredits now1 nuid neid st sub email (some r) =
        Billing.ensure_user_once freeCredits now1 nuid neid
          (Billing.ensure_user_once freeCredits r.racer_now r.racer_user_id r.racer_entry_id
            st sub r.racer_email).1 sub email := by
      rw [Billing.ensure_user, if_pos hfresh]
    have hfindr : Billing.findUserBySub
        (Billing.ensure_user_once freeCredits r.racer_now r.racer_user_id r.racer_entry_id
          st sub r.racer_email).1 sub = some rowr := by
      rw [hspecr]
      show (st.users ++ [rowr]).find? _ = _
      rw [Billing.find?_append_none _ _ _ hfresh]
      rw [List.find?_cons_of_pos _ (by simp [hrowrdef])]
    have hretry := Billing.ensure_once_granted_spec freeCredits now1 nuid neid _ sub email
      rowr hfindr (by simp [hrowrdef])
    rw [hrace, hretry]
    refine ⟨?_, ?_, rfl⟩
    · show (Billing.ensure_user_once freeCredits r.racer_now r.racer_user_id r.racer_entry_id
        st sub r.racer_email).1.ledger = _
      rw [hspecr]
    · have hpres := Billing.refresh_preserves
        (Billing.ensure_user_once freeCredits r.racer_now r.racer_user_id r.racer_entry_id
          st sub r.racer_email).1
        (Billing.updateUserBySub rowr.google_sub (fun _ => { rowr with email := email })
          (Billing.ensure_user_once freeCredits r.racer_now r.racer_user_id r.racer_entry_id
            st sub r.racer_email).1.users)
        rowr.id r.racer_user_id
      rw [hpres]
      rw [hspecr]
      rw [Billing.balance_eq_lookup]
      show (Billing.lookupA r.racer_user_id
        (Billing.setA r.racer_user_id freeCredits st.accounts)).getD 0 = freeCredits
      rw [Billing.lookupA_setA_self]
      rfl

theorem c5_free_grant_exactly_once_witness :
    Billing.balance_for_user
      (Billing.ensure_user 5 1 "u1" "l1" Billing.initState "sub" "a@x" none).1 "u1" = 5 := by
  obtain ⟨⟨st1, h1, -, h3, -⟩, -, -⟩ :=
    c5_free_grant_exactly_once 5 1 2 "u1" "l1" "u2" "l2" Billing.initState
      "sub" "a@x" "b@x" rfl rfl
  rw [congrArg Prod.fst h1]
  exact h3

/-- C6 (code bug): webhook processing does consult the WebhookEvent
idempotency table before anything else (a recorded event id short-circuits
with "already_processed" and no state change) and an unresolvable
beneficiary fails hard with a ValueError — but the grant itself never
happens: the delegation passes the keyword `request_units` to
`apply_purchase_credits`, whose keyword-only parameter is named `credits`,
so every delivery of a resolvable completed-checkout event raises
TypeError before any grant or webhook record. The claimed exactly-once
grant across duplicate deliveries (and the grant succeeding despite a
missing checkout record) is therefore unsatisfiable in the source; the
final conjunct evaluates the processor at a concrete failing input. -/
theorem c6_webhook_grant_typeerror :
    (∀ (n : Nat) (ne : String) (st : Billing.BState) (ev : Billing.StripeEvent)
      (p : String),
      st.webhook_events.any (fun w => w.stripe_event_id == ev.id) = true →
      Billing.process_checkout_completed n ne st ev p =
        Except.ok (st, false, "already_processed")) ∧
    (∀ (n : Nat) (ne : String) (st : Billing.BState) (ev : Billing.StripeEvent)
      (p : String),
      st.webhook_events.any (fun w => w.stripe_event_id == ev.id) = false →
      Billing.resolve_event_user st ev = none →
      Billing.process_checkout_completed n ne st ev p =
        Except.error (Billing.BillingError.valueError
          "Could not resolve user_id from Stripe webhook metadata")) ∧
    (∀ (n : Nat) (ne : String) (st : Billing.BState) (ev : Billing.StripeEvent)
      (p : String) (uid : String),
      st.webhook_events.any (fun w => w.stripe_event_id == ev.id) = false →
      Billing.resolve_event_user st ev = some uid →
      Billing.process_checkout_completed n ne st ev p =
        Except.error (Billing.BillingError.typeError
          "BillingService.apply_purchase_credits() got an unexpected keyword argument \x27request_units\x27")) ∧
    Billing.process_checkout_completed 2 "l2"
      (Billing.applyOp 5 Billing.initState
        (Billing.BillingOp.ensureUser "sub-1" "a@x" 1 "u1" "l1" none))
      ⟨"evt_1", "checkout.session.completed", ⟨"cs_1", some "u1", none, 10⟩⟩ "hash" =
      Except.error (Billing.BillingError.typeError
        "BillingService.apply_purchase_credits() got an unexpected keyword argument \x27request_units\x27") := by
  refine ⟨?_, ?_, ?_,
    Billing.process_typeerror 2 "l2" _ _ "hash" "u1" (by decide) (by decide)⟩
  · intro n ne st ev p h
    exact Billing.process_already n ne st ev p h
  · intro n ne st ev p h1 h2
    exact Billing.process_unresolved n ne st ev p h1 h2
  · intro n ne st ev p uid h1 h2
    exact Billing.process_typeerror n ne st ev p uid h1 h2

theorem c6_webhook_grant_typeerror_witness :
    Billing.process_checkout_completed 3 "l3"
      (Billing.applyOp 5 Billing.initState
        (Billing.BillingOp.ensureUser "sub-1" "a@x" 1 "u1" "l1" none))
      ⟨"evt_2", "checkout.session.completed", ⟨"cs_2", some "u1", none, 10⟩⟩ "hash" =
      Except.error (Billing.BillingError.typeError
        "BillingService.apply_purchase_credits() got an unexpected keyword argument \x27request_units\x27") :=
  c6_webhook_grant_typeerror.2.2.1 3 "l3"
    (Billing.applyOp 5 Billing.initState
      (Billing.BillingOp.ensureUser "sub-1" "a@x" 1 "u1" "l1" none))
    ⟨"evt_2", "checkout.session.completed", ⟨"cs_2", some "u1", none, 10⟩⟩ "hash" "u1"
    (by decide) (by decide)

/-- C7: the daily-quota consume variant (modelled from the spec, as only its
caller exists under src/) counts REQUEST_DEBIT rows in the current UTC-day
window, fails with the daily-limit condition carrying the start of the next
UTC day once the count reaches the limit, otherwise inserts one
REQUEST_DEBIT row and returns `limit - (count + 1)`; rows outside the
window are excluded from the count, and the assessment path invokes it when
billing is enabled (failing when the billing subject is missing). -/
theorem c7_daily_quota_consume (dailyLimit : Nat) (now : Nat) (neid : String)
    (st : Billing.BState) (u rid sid tool : String)
    (hkey : st.ledger.any (fun e => e.idempotency_key ==
      some ("request-debit:" ++ u ++ ":" ++ rid)) = false) :
    (dailyLimit ≤ Billing.dailyCount st u (now / 86400 * 86400)
        (now / 86400 * 86400 + 86400) →
      Billing.consume_daily_credit_for_request dailyLimit now neid st u rid sid tool =
        Except.error (Billing.BillingError.dailyLimitReached
          (now / 86400 * 86400 + 86400) "Daily request limit reached")) ∧
    (Billing.dailyCount st u (now / 86400 * 86400)
        (now / 86400 * 86400 + 86400) < dailyLimit →
      Billing.consume_daily_credit_for_request dailyLimit now neid st u rid sid tool =
        Except.ok
          ({ st with
              ledger := st.ledger ++ [{
                id := neid,
                user_id := u,
                delta := -1,
                reason := Billing.LedgerReason.REQUEST_DEBIT,
                session_id := some sid,
                balance_after := Billing.balance_for_user st u,
                metadata_json := [("ai_tool", tool), ("request_id", rid)],
                idempotency_key := some ("request-debit:" ++ u ++ ":" ++ rid),
                created_at := now }] },
           (dailyLimit : Int) - ((Billing.dailyCount st u (now / 86400 * 86400)
             (now / 86400 * 86400 + 86400) : Int) + 1))) ∧
    (∀ e : Billing.CreditLedgerEntry,
      e.created_at < now / 86400 * 86400 ∨ now / 86400 * 86400 + 86400 ≤ e.created_at →
      Billing.dailyCount { st with ledger := st.ledger ++ [e] } u
          (now / 86400 * 86400) (now / 86400 * 86400 + 86400) =
        Billing.dailyCount st u (now / 86400 * 86400) (now / 86400 * 86400 + 86400)) ∧
    (∀ us : String, us ≠ "" →
      Billing.agent_billing_gate true dailyLimit now neid st (some us) rid sid tool =
        (Billing.consume_daily_credit_for_request dailyLimit now neid st us rid sid tool).map
          (fun p => p.1)) ∧
    Billing.agent_billing_gate true dailyLimit now neid st none rid sid tool =
      Except.error (Billing.BillingError.insufficientCredits
        "Missing authenticated billing user") := by
  refine ⟨?_, ?_, ?_, ?_, ?_⟩
  · intro hcnt
    exact Billing.daily_limit_reached dailyLimit now neid st u rid sid tool hkey hcnt
  · intro hcnt
    exact Billing.daily_spec dailyLimit now neid st u rid sid tool hkey hcnt
  · intro e he
    exact Billing.daily_excludes_out_of_window st u _ _ e he
  · intro us hus
    exact Billing.gate_consumes dailyLimit now neid st us rid sid tool hus
  · exact Billing.gate_missing_sub dailyLimit now neid st rid sid tool

theorem c7_daily_quota_consume_witness :
    Billing.consume_daily_credit_for_request 20 86405 "l1" Billing.initState
      "u1" "r1" "s1" "Notion AI" =
      Except.ok
        ({ Billing.initState with
            ledger := Billing.initState.ledger ++ [{
              id := "l1",
              user_id := "u1",
              delta := -1,
              reason := Billing.LedgerReason.REQUEST_DEBIT,
              session_id := some "s1",
              balance_after := Billing.balance_for_user Billing.initState "u1",
              metadata_json := [("ai_tool", "Notion AI"), ("request_id", "r1")],
              idempotency_key := some ("request-debit:" ++ "u1" ++ ":" ++ "r1"),
              created_at := 86405 }] },
         (20 : Int) - ((Billing.dailyCount Billing.initState "u1" (86405 / 86400 * 86400)
           (86405 / 86400 * 86400 + 86400) : Int) + 1)) :=
  (c7_daily_quota_consume 20 86405 "l1" Billing.initState "u1" "r1" "s1" "Notion AI"
    rfl).2.1 (by decide)

/-- C8: a fresh user resolved with the default free-grant size 5 reports
balance 5, free remaining 5 and paid remaining 0; in general
`get_credit_state` derives free remaining as the FREE_GRANT ledger total
minus the SESSION_DEBIT total floored at 0, paid remaining as the balance
minus free remaining floored at 0, and the can-start flag holds exactly when
the balance is positive. -/
theorem c8_credit_state_breakdown :
    (∀ (now : Nat) (nuid neid sub email : String),
      Billing.get_credit_state
        (Billing.ensure_user 5 now nuid neid Billing.initState sub email none).1
        (Billing.ensure_user 5 now nuid neid Billing.initState sub email none).2.id =
        { credits_balance := 5, free_credits_remaining := 5, paid_credits_remaining := 0,
          can_start_new_session := true, stripe_customer_exists := false }) ∧
    (∀ (st : Billing.BState) (u : String),
      (Billing.get_credit_state st u).credits_balance = Billing.balance_for_user st u ∧
      (Billing.get_credit_state st u).free_credits_remaining =
        max ((((st.ledger.filter (fun e => e.user_id == u &&
            e.reason == Billing.LedgerReason.FREE_GRANT)).map (fun e => e.delta)).sum) -
          (((st.ledger.filter (fun e => e.user_id == u &&
            e.reason == Billing.LedgerReason.SESSION_DEBIT)).map (fun e => -e.delta)).sum)) 0 ∧
      (Billing.get_credit_state st u).paid_credits_remaining =
        max (Billing.balance_for_user st u -
          (Billing.get_credit_state st u).free_credits_remaining) 0 ∧
      ((Billing.get_credit_state st u).can_start_new_session = true ↔
        0 < Billing.balance_for_user st u)) := by
  constructor
  · intro now nuid neid sub email
    have h0 : (Billing.lookupA nuid Billing.initState.accounts).getD 0 + 5 = 5 := by rfl
    have hspec := Billing.ensure_once_fresh_spec 5 now nuid neid Billing.initState
      sub email rfl
    rw [h0] at hspec
    have hone : Billing.ensure_user 5 now nuid neid Billing.initState sub email none =
        Billing.ensure_user_once 5 now nuid neid Billing.initState sub email := rfl
    rw [hone, hspec]
    have hr1 : (Billing.LedgerReason.FREE_GRANT == Billing.LedgerReason.SESSION_DEBIT) = false := by
      decide
    have hr2 : (Billing.LedgerReason.FREE_GRANT == Billing.LedgerReason.FREE_GRANT) = true := by
      decide
    simp [Billing.get_credit_state, Billing.grantEntry, Billing.balance_eq_lookup,
      Billing.setA, Billing.lookupA, Billing.initState, List.filter, hr1, hr2]
  · intro st u
    refine ⟨rfl, rfl, rfl, ?_⟩
    simp [Billing.get_credit_state]

theorem c8_credit_state_breakdown_witness :
    Billing.get_credit_state
      (Billing.ensure_user 5 1 "u1" "l1" Billing.initState "sub" "a@x" none).1
      (Billing.ensure_user 5 1 "u1" "l1" Billing.initState "sub" "a@x" none).2.id =
      { credits_balance := 5, free_credits_remaining := 5, paid_credits_remaining := 0,
        can_start_new_session := true, stripe_customer_exists := false } :=
  c8_credit_state_breakdown.1 1 "u1" "l1" "sub" "a@x"

/-- C9 counterexample: for the punctuation-only follow-up "!!!" against
canonical tool "Notion AI", none of the claim's allowed-conditions holds
(the canonical tool text is non-empty, there is no verbatim containment and
no shared token) while its short-message condition does hold (at most 5
words, no question mark, no period), so the claim as stated demands a
refusal — yet the validator returns allowed. -/
theorem c9_counterexample :
    (ToolLock.canonList "Notion AI".data ≠ [] ∧
     ToolLock.isSubstring (ToolLock.canonList "Notion AI".data)
       (ToolLock.canonList "!!!".data) = false ∧
     (∀ w ∈ ToolLock.wordsOf (ToolLock.canonList "Notion AI".data),
       w ∉ ToolLock.wordsOf (ToolLock.canonList "!!!".data)) ∧
     (ToolLock.wordsOf (ToolLock.canonList "!!!".data)).length ≤ 5 ∧
     '?' ∉ "!!!".data ∧ '.' ∉ "!!!".data) ∧
    (ToolLock.validate_follow_up_tool_lock "!!!" "Notion AI").allowed = true := by
  decide

/-- C9 (amended): the tool-lock validator is a pure function of the message
and canonical tool; it returns allowed whenever the canonicalized message
is empty (blank or punctuation-only input — the amendment), the canonical
tool text is empty, the canonical tool phrase appears verbatim inside the
canonicalized message, or the two token sets share a token; otherwise it
returns not-allowed with a non-empty reason exactly when the message has at
most 5 words with no question mark or period, or combines an
assessment-intent verb with an object noun or at least 3 words. For
canonical tool "Notion AI" the follow-up asking to check the same tool is
allowed and the bare "Microsoft Copilot" is not. -/
theorem c9_tool_lock_characterization (m t : String) :
    ((ToolLock.validate_follow_up_tool_lock m t).allowed = true ↔
      (ToolLock.canonList m.data = [] ∨ ToolLock.canonList t.data = [] ∨
       ToolLock.isSubstring (ToolLock.canonList t.data) (ToolLock.canonList m.data) = true ∨
       (∃ w ∈ ToolLock.wordsOf (ToolLock.canonList t.data),
         w ∈ ToolLock.wordsOf (ToolLock.canonList m.data)) ∨
       ¬ (((ToolLock.wordsOf (ToolLock.canonList m.data)).length ≤ 5 ∧
            '?' ∉ m.data ∧ '.' ∉ m.data) ∨
          ((∃ w ∈ ToolLock.wordsOf (ToolLock.canonList m.data), w ∈ ToolLock.intentWords) ∧
           ((∃ w ∈ ToolLock.wordsOf (ToolLock.canonList m.data), w ∈ ToolLock.objectWords) ∨
            3 ≤ (ToolLock.wordsOf (ToolLock.canonList m.data)).length))))) ∧
    ((ToolLock.validate_follow_up_tool_lock m t).allowed = false →
      (ToolLock.validate_follow_up_tool_lock m t).reason ≠ "") ∧
    (ToolLock.validate_follow_up_tool_lock "Can you check Notion-AI\x27s DPA?"
      "Notion AI").allowed = true ∧
    (ToolLock.validate_follow_up_tool_lock "Microsoft Copilot" "Notion AI").allowed = false := by
  refine ⟨?_, ?_, by decide, by decide⟩
  · rw [ToolLock.validate_allowed_eq, Bool.not_eq_true']
    exact ToolLock.is_new_eq_false_iff m t
  · intro hfalse
    rw [ToolLock.validate_allowed_eq] at hfalse
    have htrue : ToolLock.is_new_tool_attempt_in_follow_up m t = true := by
      simpa using hfalse
    unfold ToolLock.validate_follow_up_tool_lock
    rw [if_pos htrue]
    decide

theorem c9_tool_lock_characterization_witness :
    (ToolLock.validate_follow_up_tool_lock "Microsoft Copilot" "Notion AI").reason ≠ "" :=
  (c9_tool_lock_characterization "Microsoft Copilot" "Notion AI").2.1 (by decide)

/-- C10: a message consisting only of whitespace (or empty) is always
allowed by the tool-lock validator regardless of the canonical tool, and
`canonicalize_tool_name` is idempotent on every input. -/
theorem c10_whitespace_allowed_and_canonicalize_idempotent :
    (∀ message canonical_tool : String, (∀ c ∈ message.data, c.isWhitespace = true) →
      (ToolLock.validate_follow_up_tool_lock message canonical_tool).allowed = true) ∧
    (∀ s : String, ToolLock.canonicalize_tool_name (ToolLock.canonicalize_tool_name s) =
      ToolLock.canonicalize_tool_name s) := by
  constructor
  · intro m t hws
    have hnw : ToolLock.hasNonWs m.data = false := by
      cases hb : ToolLock.hasNonWs m.data
      · rfl
      · rcases List.any_eq_true.1 hb with ⟨c, hc, hcw⟩
        rw [hws c hc] at hcw
        simp at hcw
    rw [ToolLock.validate_allowed_eq]
    unfold ToolLock.is_new_tool_attempt_in_follow_up
    rw [if_pos (by simp [hnw])]
    rfl
  · intro s
    exact congrArg String.mk (ToolLock.canonList_idem s.data)

theorem c10_whitespace_allowed_and_canonicalize_idempotent_witness :
    (ToolLock.validate_follow_up_tool_lock "  " "Notion AI").allowed = true ∧
    ToolLock.canonicalize_tool_name (ToolLock.canonicalize_tool_name " Notion-AI! ") =
      ToolLock.canonicalize_tool_name " Notion-AI! " :=
  ⟨c10_whitespace_allowed_and_canonicalize_idempotent.1 "  " "Notion AI" (by decide),
   c10_whitespace_allowed_and_canonicalize_idempotent.2 " Notion-AI! "⟩
